import Mathlib

/-!
Verification of the OBody-NG core: preset identity table, entity state
registry, cosave persistence codec and event dispatcher, shallowly embedded
from the C++ sources (src/src/SaveFileState/SaveFileState.cpp,
src/src/ActorTracker/ActorTracker.h, src/src/Body/Body.h,
src/src/API/PluginInterface.cpp, src/src/BackwardsCompatibility/
BackwardsCompatibility.cpp).  Machine integers are modelled as `Nat` with
explicit bounds where overflow matters; byte buffers are `List Nat`.
-/

namespace OBodyNG

/-! ### Byte-level helpers

`le32 x` is the little-endian 4-byte image of a `uint32` as laid down by
`std::memcpy` of the value on x86; `leVal4` reassembles the value from the
four bytes. -/

def le32 (x : Nat) : List Nat :=
  [x % 256, x / 256 % 256, x / 65536 % 256, x / 16777216 % 256]

def leVal4 (b0 b1 b2 b3 : Nat) : Nat :=
  b0 + 256 * b1 + 65536 * b2 + 16777216 * b3

theorem le32_length (x : Nat) : (le32 x).length = 4 := rfl

theorem leVal4_le32 (x : Nat) (h : x < 4294967296) :
    leVal4 (x % 256) (x / 256 % 256) (x / 65536 % 256) (x / 16777216 % 256) = x := by
  unfold leVal4
  omega

/-! ### ActorTracker::ActorState (ActorTracker.h, lines 7-26)

The C++ type is a union of a packed `uint32_t value` with an MSVC bitfield
allocated LSB-first: bit 0 `actorChangeEventsAreBeingSent`, bits 1-11
`unusedSpareBitsForLaterUse`, bits 12-31 `presetIndex` (20 bits).  We model
the packed word as a `Nat` and the bitfield accesses as the corresponding
div/mod arithmetic. -/

namespace ActorState

def PersistedInCosaveMask : Nat := 0b11111111111111111111000000000000

/-- Bitfield read of `actorChangeEventsAreBeingSent` (bit 0). -/
def actorChangeEventsAreBeingSent (s : Nat) : Nat := s % 2

/-- Bitfield read of `unusedSpareBitsForLaterUse` (bits 1-11). -/
def unusedSpareBitsForLaterUse (s : Nat) : Nat := s / 2 % 2048

/-- Bitfield read of `presetIndex` (bits 12-31). -/
def presetIndex (s : Nat) : Nat := s / 4096 % 1048576

/-- Bitfield store `presetIndex = v` (the stored value is truncated to the
20-bit field, as a C++ bitfield assignment does). -/
def setPresetIndex (s v : Nat) : Nat := s % 4096 + v % 1048576 * 4096

/-- Bitfield store `actorChangeEventsAreBeingSent = b` (bit 0). -/
def setGuard (s : Nat) (b : Bool) : Nat := s - s % 2 + (if b then 1 else 0)

theorem mask_shift : PersistedInCosaveMask = (2 ^ 20 - 1) <<< 12 := by decide

/-- `value & PersistedInCosaveMask` keeps exactly the `presetIndex` bits. -/
theorem land_mask (s : Nat) : s &&& PersistedInCosaveMask = s / 4096 % 1048576 * 4096 := by
  rw [mask_shift]
  have h : s / 4096 % 1048576 * 4096 = (s >>> 12 &&& (2 ^ 20 - 1)) <<< 12 := by
    rw [Nat.and_pow_two_sub_one_eq_mod, Nat.shiftLeft_eq, Nat.shiftRight_eq_div_pow]
  rw [h]
  apply Nat.eq_of_testBit_eq
  intro i
  simp only [Nat.testBit_and, Nat.testBit_shiftLeft, Nat.testBit_shiftRight,
    Nat.testBit_mod_two_pow, Nat.testBit_two_pow_sub_one]
  by_cases h12 : 12 ≤ i
  · have : 12 + (i - 12) = i := by omega
    simp [h12, this, Bool.and_comm, Bool.and_assoc, Bool.and_left_comm]
  · simp [h12]

theorem presetIndex_land_mask (s : Nat) :
    presetIndex (s &&& PersistedInCosaveMask) = presetIndex s := by
  rw [land_mask]
  unfold presetIndex
  omega

theorem guard_land_mask (s : Nat) :
    actorChangeEventsAreBeingSent (s &&& PersistedInCosaveMask) = 0 := by
  rw [land_mask]
  unfold actorChangeEventsAreBeingSent
  omega

theorem land_mask_lt (s : Nat) : s &&& PersistedInCosaveMask < 4294967296 := by
  rw [land_mask]
  have : s / 4096 % 1048576 < 1048576 := Nat.mod_lt _ (by omega)
  omega

theorem land_mask_idem (s : Nat) :
    (s &&& PersistedInCosaveMask) &&& PersistedInCosaveMask = s &&& PersistedInCosaveMask := by
  rw [Nat.and_assoc]
  have : PersistedInCosaveMask &&& PersistedInCosaveMask = PersistedInCosaveMask :=
    Nat.and_self _
  rw [this]

end ActorState

/-! ### The actor registry (ActorTracker::Registry)

`boost::concurrent_flat_map<RE::FormID, ActorState>` is modelled as an
association list with unique keys; `insert_or_assign` replaces the value of
an existing key in place and otherwise appends the new pair. -/

def Registry : Type := List (Nat × Nat)

def insertOrAssign : List (Nat × Nat) → Nat → Nat → List (Nat × Nat)
  | [], f, v => [(f, v)]
  | (k, w) :: rest, f, v =>
      if k = f then (k, v) :: rest else (k, w) :: insertOrAssign rest f v

def lookupState : List (Nat × Nat) → Nat → Option Nat
  | [], _ => none
  | (k, w) :: rest, f => if k = f then some w else lookupState rest f

theorem insertOrAssign_of_not_mem (reg : List (Nat × Nat)) (f v : Nat)
    (h : ∀ e ∈ reg, e.1 ≠ f) : insertOrAssign reg f v = reg ++ [(f, v)] := by
  induction reg with
  | nil => rfl
  | cons e rest ih =>
      obtain ⟨k, w⟩ := e
      have hk : k ≠ f := h (k, w) (List.mem_cons_self _ _)
      simp only [insertOrAssign, if_neg hk, List.cons_append]
      rw [ih (fun e he => h e (List.mem_cons_of_mem _ he))]

/-! ### SaveFileState: actor-registry record, version 0
(SaveFileState.cpp, lines 107-184)

The writer walks the registry and lays down, for every entry, 4 bytes of
form-ID followed by 4 bytes of `ActorState.value & PersistedInCosaveMask`,
flushing the 65536-byte buffer whenever it fills.  On a successful save the
flushes deliver exactly the concatenation of the per-entry bytes to the
sink, which is what the model produces. -/

def BufferSize : Nat := 65536

def WriteRecordDataForActorRegistryV0 (reg : List (Nat × Nat)) : List Nat :=
  reg.flatMap fun e => le32 e.1 ++ le32 (e.2 &&& ActorState.PersistedInCosaveMask)

/-- One full buffer's worth of entries: the reader copies out a form-ID and
an actor-state, masks the state with `PersistedInCosaveMask` and
`insert_or_assign`s it, until the refilled bytes are exhausted. -/
def readActorRegistryEntries : List Nat → List (Nat × Nat) → List (Nat × Nat)
  | b0 :: b1 :: b2 :: b3 :: b4 :: b5 :: b6 :: b7 :: rest, reg =>
      readActorRegistryEntries rest
        (insertOrAssign reg (leVal4 b0 b1 b2 b3)
          (leVal4 b4 b5 b6 b7 &&& ActorState.PersistedInCosaveMask))
  | _, reg => reg

/-- The refill loop of `ReadRecordDataForActorRegistryV0`: each
`ReadRecordData(buffer, BufferSize)` yields the next `min BufferSize`
bytes of the record; zero bytes means a clean end, a refill that is not a
multiple of 8 is the misalignment failure.  The boolean is the C++ return
value; the registry is returned as mutated so far (failure does not roll
back earlier insertions).  `fuel` strictly exceeds the number of refills. -/
def readActorRegistryLoop : Nat → List Nat → List (Nat × Nat) → List (Nat × Nat) × Bool
  | 0, _, reg => (reg, false)
  | fuel + 1, stream, reg =>
      let chunk := stream.take BufferSize
      if chunk.length = 0 then (reg, true)
      else if chunk.length % 8 ≠ 0 then (reg, false)
      else readActorRegistryLoop fuel (stream.drop BufferSize) (readActorRegistryEntries chunk reg)

def ReadRecordDataForActorRegistryV0 (stream : List Nat) (reg : List (Nat × Nat)) :
    List (Nat × Nat) × Bool :=
  readActorRegistryLoop (stream.length + 1) stream reg

theorem readActorRegistryEntries_append (a b : List Nat) (reg : List (Nat × Nat))
    (hmod : a.length % 8 = 0) :
    readActorRegistryEntries (a ++ b) reg =
      readActorRegistryEntries b (readActorRegistryEntries a reg) := by
  match a with
  | [] => simp [readActorRegistryEntries]
  | [b0] | [b0, b1] | [b0, b1, b2] | [b0, b1, b2, b3] | [b0, b1, b2, b3, b4]
  | [b0, b1, b2, b3, b4, b5] | [b0, b1, b2, b3, b4, b5, b6] =>
      simp at hmod
  | b0 :: b1 :: b2 :: b3 :: b4 :: b5 :: b6 :: b7 :: rest =>
      simp only [List.cons_append, readActorRegistryEntries]
      exact readActorRegistryEntries_append rest b _ (by simp at hmod ⊢; omega)
termination_by a.length
decreasing_by simp; omega

theorem writeActorRegistry_length (reg : List (Nat × Nat)) :
    (WriteRecordDataForActorRegistryV0 reg).length = 8 * reg.length := by
  induction reg with
  | nil => rfl
  | cons e rest ih =>
      simp only [WriteRecordDataForActorRegistryV0, List.flatMap_cons, List.length_append,
        le32_length, List.length_cons] at ih ⊢
      omega

theorem readActorRegistryEntries_write (reg : List (Nat × Nat)) :
    ∀ acc : List (Nat × Nat),
      reg.Pairwise (fun a b => a.1 ≠ b.1) →
      (∀ e ∈ reg, ∀ e' ∈ acc, e'.1 ≠ e.1) →
      (∀ e ∈ reg, e.1 < 4294967296) →
      readActorRegistryEntries (WriteRecordDataForActorRegistryV0 reg) acc =
        acc ++ reg.map (fun e => (e.1, e.2 &&& ActorState.PersistedInCosaveMask)) := by
  induction reg with
  | nil => intro acc _ _ _; simp [WriteRecordDataForActorRegistryV0, readActorRegistryEntries]
  | cons e rest ih =>
      intro acc hkeys hfresh hf
      obtain ⟨f, s⟩ := e
      have hwrite : WriteRecordDataForActorRegistryV0 ((f, s) :: rest) =
          f % 256 :: f / 256 % 256 :: f / 65536 % 256 :: f / 16777216 % 256 ::
          (s &&& ActorState.PersistedInCosaveMask) % 256 ::
          (s &&& ActorState.PersistedInCosaveMask) / 256 % 256 ::
          (s &&& ActorState.PersistedInCosaveMask) / 65536 % 256 ::
          (s &&& ActorState.PersistedInCosaveMask) / 16777216 % 256 ::
            WriteRecordDataForActorRegistryV0 rest := by
        simp [WriteRecordDataForActorRegistryV0, le32]
      rw [hwrite]
      simp only [readActorRegistryEntries]
      rw [leVal4_le32 f (hf (f, s) (List.mem_cons_self _ _)),
        leVal4_le32 _ (ActorState.land_mask_lt s), ActorState.land_mask_idem,
        insertOrAssign_of_not_mem acc f _
          (fun e' he' => hfresh (f, s) (List.mem_cons_self _ _) e' he')]
      rw [ih (acc ++ [(f, s &&& ActorState.PersistedInCosaveMask)])
        (List.Pairwise.sublist (List.sublist_cons_self _ _) hkeys)
        ?_ (fun e he => hf e (List.mem_cons_of_mem _ he))]
      · simp
      · intro e he e' he'
        rcases List.mem_append.mp he' with h | h
        · exact hfresh e (List.mem_cons_of_mem _ he) e' h
        · have : e' = (f, s &&& ActorState.PersistedInCosaveMask) := by
            simpa using h
          subst this
          exact (List.pairwise_cons.mp hkeys).1 e he

theorem readActorRegistryLoop_spec (fuel : Nat) :
    ∀ (stream : List Nat) (reg : List (Nat × Nat)), stream.length % 8 = 0 →
      stream.length < fuel →
      readActorRegistryLoop fuel stream reg = (readActorRegistryEntries stream reg, true) := by
  induction fuel with
  | zero => intro stream reg _ h; omega
  | succ fuel ih =>
      intro stream reg hmod hfuel
      by_cases hnil : stream.length = 0
      · have : stream = [] := List.length_eq_zero.mp hnil
        subst this
        simp [readActorRegistryLoop, readActorRegistryEntries]
      · have htake : (stream.take BufferSize).length = min BufferSize stream.length :=
          List.length_take _ _
        have htake0 : (stream.take BufferSize).length ≠ 0 := by
          rw [htake]; unfold BufferSize; omega
        have htakemod : (stream.take BufferSize).length % 8 = 0 := by
          rw [htake]; unfold BufferSize at *; omega
        have hdroplen : (stream.drop BufferSize).length = stream.length - BufferSize :=
          List.length_drop _ _
        simp only [readActorRegistryLoop, if_neg htake0, htakemod, ite_not, ite_true,
          if_neg (by omega : ¬(0 : Nat) ≠ 0)]
        rw [ih (stream.drop BufferSize) _ (by rw [hdroplen]; unfold BufferSize at *; omega)
          (by rw [hdroplen]; unfold BufferSize at *; omega)]
        rw [← readActorRegistryEntries_append _ _ _ htakemod, List.take_append_drop]

/-- C1: serializing the actor registry with `WriteRecordDataForActorRegistryV0`
and deserializing the produced bytes with `ReadRecordDataForActorRegistryV0`
into an empty registry succeeds and yields exactly the same
`(formID, presetIndex)` pairs, and every deserialized `ActorState` has its
re-entrancy bit `actorChangeEventsAreBeingSent` equal to 0, regardless of the
bit's value before writing. -/
theorem actorRegistry_roundtrip (reg : List (Nat × Nat))
    (hkeys : reg.Pairwise (fun a b => a.1 ≠ b.1))
    (hform : ∀ e ∈ reg, e.1 < 4294967296) :
    (ReadRecordDataForActorRegistryV0 (WriteRecordDataForActorRegistryV0 reg) []).2 = true ∧
    (ReadRecordDataForActorRegistryV0 (WriteRecordDataForActorRegistryV0 reg) []).1.map
        (fun e => (e.1, ActorState.presetIndex e.2)) =
      reg.map (fun e => (e.1, ActorState.presetIndex e.2)) ∧
    ∀ e ∈ (ReadRecordDataForActorRegistryV0 (WriteRecordDataForActorRegistryV0 reg) []).1,
      ActorState.actorChangeEventsAreBeingSent e.2 = 0 := by
  have hmod : (WriteRecordDataForActorRegistryV0 reg).length % 8 = 0 := by
    rw [writeActorRegistry_length]; omega
  have hread : ReadRecordDataForActorRegistryV0 (WriteRecordDataForActorRegistryV0 reg) [] =
      (readActorRegistryEntries (WriteRecordDataForActorRegistryV0 reg) [], true) := by
    unfold ReadRecordDataForActorRegistryV0
    exact readActorRegistryLoop_spec _ _ _ hmod (by omega)
  have hentries : readActorRegistryEntries (WriteRecordDataForActorRegistryV0 reg) [] =
      reg.map (fun e => (e.1, e.2 &&& ActorState.PersistedInCosaveMask)) := by
    rw [readActorRegistryEntries_write reg [] hkeys (by intro _ _ e' he'; cases he') hform]
    simp
  rw [hread, hentries]
  refine ⟨rfl, ?_, ?_⟩
  · simp only [List.map_map]
    apply List.map_congr_left
    intro e _
    simp [Function.comp, ActorState.presetIndex_land_mask]
  · intro e he
    obtain ⟨e', _, he'⟩ := List.mem_map.mp he
    rw [← he']
    exact ActorState.guard_land_mask e'.2

/-- Witness for C1 at the singleton registry `{0x1234 ↦ state}` where the
state has the re-entrancy bit set and preset-index 2. -/
theorem actorRegistry_roundtrip_witness :
    ((List.Pairwise (fun a b => a.1 ≠ b.1) [((4660 : Nat), (8193 : Nat))]) ∧
      ∀ e ∈ [((4660 : Nat), (8193 : Nat))], e.1 < 4294967296) ∧
    (ReadRecordDataForActorRegistryV0
        (WriteRecordDataForActorRegistryV0 [(4660, 8193)]) []).2 = true ∧
    (ReadRecordDataForActorRegistryV0
        (WriteRecordDataForActorRegistryV0 [(4660, 8193)]) []).1.map
        (fun e => (e.1, ActorState.presetIndex e.2)) =
      [(4660, 8193)].map (fun e => (e.1, ActorState.presetIndex e.2)) ∧
    ∀ e ∈ (ReadRecordDataForActorRegistryV0
        (WriteRecordDataForActorRegistryV0 [(4660, 8193)]) []).1,
      ActorState.actorChangeEventsAreBeingSent e.2 = 0 :=
  ⟨⟨List.pairwise_singleton _ _, by decide⟩,
    actorRegistry_roundtrip [(4660, 8193)] (List.pairwise_singleton _ _) (by decide)⟩

/-! ### Preset identity table (PresetManager::PresetContainer)

One category (female or male) owns `indexByName`
(`boost::unordered_flat_map<std::string, AssignedPresetIndex>`, an
association list here, names being byte strings), the allocation counter
`nextIndex` (`AssignedPresetIndex nextXPresetIndex`) and the dense table
`byIndex` (`SparsePresetMapping allXPresetsByIndex`). -/

structure CategoryState where
  indexByName : List (List Nat × Nat)
  nextIndex : Nat
  byIndex : List Nat

def lookupName : List (List Nat × Nat) → List Nat → Option Nat
  | [], _ => none
  | (k, w) :: rest, n => if k = n then some w else lookupName rest n

/-- `std::vector::resize(n, v)`: shrink by truncation, grow by appending
copies of `v`. -/
def resize (l : List Nat) (n : Nat) (v : Nat) : List Nat :=
  if n ≤ l.length then l.take n else l ++ List.replicate (n - l.length) v

/-- `(PresetManager::SparsePresetIndex)-1`, the absent-preset sentinel. -/
def SentinelAbsent : Nat := 4294967295

/-- Index assignment for one category, as performed by
`State::MigrateStorageUtilPresetAssignmentsOverToSKSECosave`
(BackwardsCompatibility.cpp, lines 81-89): `emplace(name, nextIndex.value)`;
when the insertion happened, `++nextIndex.value` and
`byIndex.resize(nextIndex.value, -1)`. -/
def assignIndex (c : CategoryState) (name : List Nat) : Nat × CategoryState :=
  match lookupName c.indexByName name with
  | some i => (i, c)
  | none =>
      (c.nextIndex,
        { indexByName := c.indexByName ++ [(name, c.nextIndex)]
          nextIndex := c.nextIndex + 1
          byIndex := resize c.byIndex (c.nextIndex + 1) SentinelAbsent })

theorem lookupName_mem (m : List (List Nat × Nat)) (n : List Nat) (i : Nat)
    (h : lookupName m n = some i) : (n, i) ∈ m := by
  induction m with
  | nil => cases h
  | cons e rest ih =>
      obtain ⟨k, w⟩ := e
      by_cases hk : k = n
      · subst hk
        have hwi : w = i := by simpa [lookupName] using h
        subst hwi
        exact List.mem_cons_self _ _
      · simp only [lookupName, if_neg hk] at h
        exact List.mem_cons_of_mem _ (ih h)

theorem lookupName_append_single (m : List (List Nat × Nat)) (n1 n2 : List Nat) (i : Nat)
    (h : n1 ≠ n2) : lookupName (m ++ [(n1, i)]) n2 = lookupName m n2 := by
  induction m with
  | nil => simp [lookupName, h]
  | cons e rest ih =>
      obtain ⟨k, w⟩ := e
      by_cases hk : k = n2
      · simp [lookupName, hk]
      · simp only [List.cons_append, lookupName, if_neg hk]
        exact ih

theorem lookupName_append_self (m : List (List Nat × Nat)) (n : List Nat) (i : Nat)
    (h : lookupName m n = none) : lookupName (m ++ [(n, i)]) n = some i := by
  induction m with
  | nil => simp [lookupName]
  | cons e rest ih =>
      obtain ⟨k, w⟩ := e
      by_cases hk : k = n
      · simp [lookupName, hk] at h
      · simp only [lookupName, if_neg hk] at h
        simp only [List.cons_append, lookupName, if_neg hk]
        exact ih h

theorem getD_replicate_lt (k i v : Nat) (h : i < k) :
    (List.replicate k v).getD i 0 = v := by
  induction k generalizing i with
  | zero => omega
  | succ k ih =>
      cases i with
      | zero => rfl
      | succ i => exact ih i (by omega)

theorem getD_append_ge (l r : List Nat) (i : Nat) (h : l.length ≤ i) :
    (l ++ r).getD i 0 = r.getD (i - l.length) 0 := by
  induction l generalizing i with
  | nil => simp
  | cons a rest ih =>
      cases i with
      | zero => simp at h
      | succ i =>
          simp only [List.cons_append, List.length_cons]
          have : (a :: (rest ++ r)).getD (i + 1) 0 = (rest ++ r).getD i 0 := rfl
          rw [this, ih i (by simpa using h)]
          congr 1
          omega

/-- C3: index assignment is idempotent and injective per category.  A name
that already has an index gets it back with the state unchanged; a fresh
name receives the category's next-index counter, the counter advances by
exactly one, the dense table is extended so the new slot holds the
sentinel `-1`, and two distinct names assigned in sequence in the same
category receive distinct indexes. -/
theorem assignIndex_spec (c : CategoryState) (n1 n2 : List Nat) :
    (∀ i, lookupName c.indexByName n1 = some i → assignIndex c n1 = (i, c)) ∧
    (lookupName c.indexByName n1 = none → c.byIndex.length ≤ c.nextIndex →
      (assignIndex c n1).1 = c.nextIndex ∧
      (assignIndex c n1).2.nextIndex = c.nextIndex + 1 ∧
      (assignIndex c n1).2.byIndex.length = c.nextIndex + 1 ∧
      (assignIndex c n1).2.byIndex.getD c.nextIndex 0 = SentinelAbsent ∧
      lookupName (assignIndex c n1).2.indexByName n1 = some c.nextIndex) ∧
    (n1 ≠ n2 →
      (∀ e ∈ c.indexByName, e.2 < c.nextIndex) →
      c.indexByName.Pairwise (fun a b => a.2 ≠ b.2) →
      (assignIndex c n1).1 ≠ (assignIndex (assignIndex c n1).2 n2).1) := by
  refine ⟨?_, ?_, ?_⟩
  · intro i h
    simp [assignIndex, h]
  · intro h hlen
    simp only [assignIndex, h]
    have hres : resize c.byIndex (c.nextIndex + 1) SentinelAbsent =
        c.byIndex ++ List.replicate (c.nextIndex + 1 - c.byIndex.length) SentinelAbsent := by
      unfold resize
      rw [if_neg (by omega)]
    refine ⟨trivial, trivial, ?_, ?_, ?_⟩
    · simp [hres]; omega
    · simp only [hres]
      rw [getD_append_ge _ _ _ hlen, getD_replicate_lt _ _ _ (by omega)]
    · exact lookupName_append_self _ _ _ h
  · intro hne hlt hinj
    cases h1 : lookupName c.indexByName n1 with
    | some i1 =>
        have hc1 : assignIndex c n1 = (i1, c) := by simp [assignIndex, h1]
        rw [hc1]
        cases h2 : lookupName c.indexByName n2 with
        | some i2 =>
            have hc2 : assignIndex c n2 = (i2, c) := by simp [assignIndex, h2]
            rw [hc2]
            have hm1 := lookupName_mem _ _ _ h1
            have hm2 := lookupName_mem _ _ _ h2
            have hsym : Symmetric (fun a b : List Nat × Nat => a.2 ≠ b.2) :=
              fun a b h => h.symm
            exact hinj.forall hsym hm1 hm2 (by simp; intro hcontra _; exact hne hcontra)
        | none =>
            have hc2 : (assignIndex c n2).1 = c.nextIndex := by simp [assignIndex, h2]
            rw [hc2]
            have := hlt _ (lookupName_mem _ _ _ h1)
            simp at this ⊢
            omega
    | none =>
        have hc1 : assignIndex c n1 =
            (c.nextIndex,
              { indexByName := c.indexByName ++ [(n1, c.nextIndex)]
                nextIndex := c.nextIndex + 1
                byIndex := resize c.byIndex (c.nextIndex + 1) SentinelAbsent }) := by
          simp [assignIndex, h1]
        rw [hc1]
        cases h2 : lookupName (c.indexByName ++ [(n1, c.nextIndex)]) n2 with
        | some i2 =>
            simp only [assignIndex, h2]
            rw [lookupName_append_single _ _ _ _ hne] at h2
            have := hlt _ (lookupName_mem _ _ _ h2)
            simp
            omega
        | none =>
            simp only [assignIndex, h2]
            simp

/-- Witness for C3 at the one-category state `{"C" ↦ 0}`, counter 1, dense
table `[-1]`: re-requesting "C" returns 0 unchanged, assigning fresh "D"
returns 1 and extends the table with the sentinel, and assigning "E" next
yields an index distinct from "D"'s. -/
theorem assignIndex_spec_witness :
    assignIndex (CategoryState.mk [([67], 0)] 1 [4294967295]) [67] =
      (0, CategoryState.mk [([67], 0)] 1 [4294967295]) ∧
    ((assignIndex (CategoryState.mk [([67], 0)] 1 [4294967295]) [68]).1 = 1 ∧
      (assignIndex (CategoryState.mk [([67], 0)] 1 [4294967295]) [68]).2.nextIndex = 2 ∧
      (assignIndex (CategoryState.mk [([67], 0)] 1 [4294967295]) [68]).2.byIndex.length = 2 ∧
      (assignIndex (CategoryState.mk [([67], 0)] 1 [4294967295]) [68]).2.byIndex.getD 1 0 =
        SentinelAbsent ∧
      lookupName (assignIndex (CategoryState.mk [([67], 0)] 1 [4294967295]) [68]).2.indexByName
        [68] = some 1) ∧
    (assignIndex (CategoryState.mk [([67], 0)] 1 [4294967295]) [68]).1 ≠
      (assignIndex (assignIndex (CategoryState.mk [([67], 0)] 1 [4294967295]) [68]).2 [69]).1 :=
  ⟨(assignIndex_spec (CategoryState.mk [([67], 0)] 1 [4294967295]) [67] [69]).1 0 (by decide),
    (assignIndex_spec (CategoryState.mk [([67], 0)] 1 [4294967295]) [68] [69]).2.1
      (by decide) (by decide),
    (assignIndex_spec (CategoryState.mk [([67], 0)] 1 [4294967295]) [68] [69]).2.2
      (by decide) (by decide) (List.pairwise_singleton _ _)⟩

/-! ### OBody::SendActorChangeEvent (Body.h, lines 71-105)

Modelled with explicit listener, payload and external-state types.  The
external state `S` stands for everything a listener's side effects can
touch besides the registry; `prepareArguments` may read and update it, each
listener invocation `eventMethod l args st` may update it.  The result
records the final registry, the final external state, the ordered list of
`(listener, arguments)` invocations that happened, and the arguments
snapshot if one was computed. -/

structure SendEventResult (L A S : Type) where
  registry : List (Nat × Nat)
  external : S
  invocations : List (L × A)
  preparedArguments : Option A

/-- `stateForActor.visit(formID, visitor)`: applies the visitor to the value
stored under the given key, no-op when the key is absent. -/
def visitValue : List (Nat × Nat) → Nat → (Nat → Nat) → List (Nat × Nat)
  | [], _, _ => []
  | (k, w) :: rest, f, g =>
      if k = f then (k, g w) :: rest else (k, w) :: visitValue rest f g

def SendActorChangeEvent {L A S : Type} (registry : List (Nat × Nat)) (listeners : List L)
    (formID : Nat) (prepareArguments : S → A × S) (eventMethod : L → A → S → S)
    (external : S) : SendEventResult L A S :=
  if listeners.length = 0 then
    ⟨registry, external, [], none⟩
  else
    -- `fallbackActorState{}` with `actorChangeEventsAreBeingSent = true`
    let fallbackActorState := ActorState.setGuard 0 true
    -- `emplace_or_visit(formID, fallbackActorState, ...)`: the visitor reads
    -- the old guard bit into `isRecursiveActorEvent` and stores `true`
    let isRecursiveActorEvent :=
      match lookupState registry formID with
      | some s => ActorState.actorChangeEventsAreBeingSent s == 1
      | none => false
    let registry1 :=
      match lookupState registry formID with
      | some _ => visitValue registry formID (fun s => ActorState.setGuard s true)
      | none => registry ++ [(formID, fallbackActorState)]
    if isRecursiveActorEvent then ⟨registry1, external, [], none⟩
    else
      let prepared := prepareArguments external
      let external2 := listeners.foldl (fun st l => eventMethod l prepared.1 st) prepared.2
      let registry2 := visitValue registry1 formID (fun s => ActorState.setGuard s false)
      ⟨registry2, external2, listeners.map (fun l => (l, prepared.1)), some prepared.1⟩

theorem lookup_visitValue_self (reg : List (Nat × Nat)) (f : Nat) (g : Nat → Nat) :
    lookupState (visitValue reg f g) f = (lookupState reg f).map g := by
  induction reg with
  | nil => rfl
  | cons e rest ih =>
      obtain ⟨k, w⟩ := e
      by_cases hk : k = f
      · subst hk
        simp [visitValue, lookupState]
      · simp only [visitValue, if_neg hk, lookupState]
        exact ih

theorem lookup_visitValue_other (reg : List (Nat × Nat)) (f g : Nat) (vis : Nat → Nat)
    (h : g ≠ f) :
    lookupState (visitValue reg f vis) g = lookupState reg g := by
  induction reg with
  | nil => rfl
  | cons e rest ih =>
      obtain ⟨k, w⟩ := e
      by_cases hk : k = f
      · subst hk
        simp only [visitValue, if_pos rfl, lookupState]
        rw [if_neg (fun hkg => h hkg.symm), if_neg (fun hkg => h hkg.symm)]
      · by_cases hkg : k = g
        · subst hkg
          simp [visitValue, lookupState, if_neg hk]
        · simp only [visitValue, if_neg hk, lookupState]
          rw [if_neg hkg, if_neg hkg]
          exact ih

theorem setGuard_of_guard_one (s : Nat)
    (h : ActorState.actorChangeEventsAreBeingSent s = 1) :
    ActorState.setGuard s true = s := by
  unfold ActorState.setGuard
  unfold ActorState.actorChangeEventsAreBeingSent at h
  simp only [if_pos trivial]
  omega

/-- C4: a notification triggered while the entity's re-entrancy guard bit is
already set invokes zero listeners, never computes the event arguments,
returns without error, leaves the guard bit set on the entity's registry
entry and leaves every other entry untouched. -/
theorem sendActorChangeEvent_reentrant_suppression {L A S : Type}
    (registry : List (Nat × Nat)) (listeners : List L) (formID : Nat)
    (prepareArguments : S → A × S) (eventMethod : L → A → S → S) (external : S) (s : Nat)
    (hlook : lookupState registry formID = some s)
    (hguard : ActorState.actorChangeEventsAreBeingSent s = 1) :
    (SendActorChangeEvent registry listeners formID prepareArguments eventMethod
        external).invocations = [] ∧
    (SendActorChangeEvent registry listeners formID prepareArguments eventMethod
        external).preparedArguments = none ∧
    (SendActorChangeEvent registry listeners formID prepareArguments eventMethod
        external).external = external ∧
    lookupState (SendActorChangeEvent registry listeners formID prepareArguments eventMethod
        external).registry formID = some s ∧
    ∀ g, g ≠ formID →
      lookupState (SendActorChangeEvent registry listeners formID prepareArguments eventMethod
        external).registry g = lookupState registry g := by
  by_cases hlen : listeners.length = 0
  · refine ⟨?_, ?_, ?_, ?_, ?_⟩ <;>
      simp only [SendActorChangeEvent, if_pos hlen]
    · exact hlook
    · intro g _
      trivial
  · have hrec : (ActorState.actorChangeEventsAreBeingSent s == 1) = true := by
      rw [hguard]
      decide
    refine ⟨?_, ?_, ?_, ?_, ?_⟩ <;>
      simp only [SendActorChangeEvent, if_neg hlen, hlook, hrec, if_true]
    · rw [lookup_visitValue_self, hlook, Option.map_some', setGuard_of_guard_one s hguard]
    · intro g hg
      exact lookup_visitValue_other _ _ _ _ hg

/-- Witness for C4: registry `{7 ↦ 1}` (guard bit set), two listeners. -/
theorem sendActorChangeEvent_reentrant_suppression_witness :
    (SendActorChangeEvent [((7 : Nat), (1 : Nat))] [(10 : Nat), 20] 7
        (fun st : Nat => (st + 100, st + 1)) (fun l a st => st + l + a) 5).invocations = [] ∧
    (SendActorChangeEvent [((7 : Nat), (1 : Nat))] [(10 : Nat), 20] 7
        (fun st : Nat => (st + 100, st + 1)) (fun l a st => st + l + a) 5).preparedArguments =
      none ∧
    (SendActorChangeEvent [((7 : Nat), (1 : Nat))] [(10 : Nat), 20] 7
        (fun st : Nat => (st + 100, st + 1)) (fun l a st => st + l + a) 5).external = 5 ∧
    lookupState (SendActorChangeEvent [((7 : Nat), (1 : Nat))] [(10 : Nat), 20] 7
        (fun st : Nat => (st + 100, st + 1)) (fun l a st => st + l + a) 5).registry 7 =
      some 1 ∧
    lookupState (SendActorChangeEvent [((7 : Nat), (1 : Nat))] [(10 : Nat), 20] 7
        (fun st : Nat => (st + 100, st + 1)) (fun l a st => st + l + a) 5).registry 9 =
      lookupState [((7 : Nat), (1 : Nat))] 9 :=
  have h := sendActorChangeEvent_reentrant_suppression [((7 : Nat), (1 : Nat))]
    [(10 : Nat), 20] 7 (fun st : Nat => (st + 100, st + 1)) (fun l a st => st + l + a) 5 1
    (by decide) (by decide)
  ⟨h.1, h.2.1, h.2.2.1, h.2.2.2.1, h.2.2.2.2 9 (by decide)⟩

/-- C5: in a non-suppressed fan-out the event arguments are computed exactly
once, from the external state as it was before any listener ran, and every
registered listener is invoked in registration order with that identical
snapshot, even though the listeners themselves update the external state. -/
theorem sendActorChangeEvent_snapshot {L A S : Type}
    (registry : List (Nat × Nat)) (listeners : List L) (formID : Nat)
    (prepareArguments : S → A × S) (eventMethod : L → A → S → S) (external : S)
    (hne : listeners ≠ [])
    (hguard : ∀ s, lookupState registry formID = some s →
      ActorState.actorChangeEventsAreBeingSent s ≠ 1) :
    (SendActorChangeEvent registry listeners formID prepareArguments eventMethod
        external).preparedArguments = some (prepareArguments external).1 ∧
    (SendActorChangeEvent registry listeners formID prepareArguments eventMethod
        external).invocations =
      listeners.map (fun l => (l, (prepareArguments external).1)) ∧
    (SendActorChangeEvent registry listeners formID prepareArguments eventMethod
        external).invocations.map Prod.fst = listeners ∧
    (∀ p ∈ (SendActorChangeEvent registry listeners formID prepareArguments eventMethod
        external).invocations,
      ∀ q ∈ (SendActorChangeEvent registry listeners formID prepareArguments eventMethod
        external).invocations, p.2 = q.2) ∧
    (SendActorChangeEvent registry listeners formID prepareArguments eventMethod
        external).external =
      listeners.foldl (fun st l => eventMethod l (prepareArguments external).1 st)
        (prepareArguments external).2 := by
  have hlen : listeners.length ≠ 0 := fun h => hne (List.length_eq_zero.mp h)
  have hrec : (match lookupState registry formID with
      | some s => ActorState.actorChangeEventsAreBeingSent s == 1
      | none => false) = false := by
    cases hl : lookupState registry formID with
    | none => rfl
    | some s =>
        show (ActorState.actorChangeEventsAreBeingSent s == 1) = false
        simp only [beq_eq_false_iff_ne, ne_eq]
        exact hguard s hl
  refine ⟨?_, ?_, ?_, ?_, ?_⟩ <;>
    simp only [SendActorChangeEvent, if_neg hlen, hrec, Bool.false_eq_true, if_false]
  · have hcomp : (Prod.fst ∘ fun l : L => (l, (prepareArguments external).1)) = id := rfl
    rw [List.map_map, hcomp, List.map_id]
  · intro p hp q hq
    obtain ⟨lp, _, hlp⟩ := List.mem_map.mp hp
    obtain ⟨lq, _, hlq⟩ := List.mem_map.mp hq
    rw [← hlp, ← hlq]

/-- Witness for C5: empty registry, listeners `[10, 20]`, payload computed
from the pre-event external state 5. -/
theorem sendActorChangeEvent_snapshot_witness :
    (SendActorChangeEvent [] [(10 : Nat), 20] 7
        (fun st : Nat => (st + 100, st + 1)) (fun l a st => st + l + a) 5).preparedArguments =
      some 105 ∧
    (SendActorChangeEvent [] [(10 : Nat), 20] 7
        (fun st : Nat => (st + 100, st + 1)) (fun l a st => st + l + a) 5).invocations =
      [(10, 105), (20, 105)] ∧
    (SendActorChangeEvent [] [(10 : Nat), 20] 7
        (fun st : Nat => (st + 100, st + 1)) (fun l a st => st + l + a) 5).invocations.map
        Prod.fst = [10, 20] ∧
    (SendActorChangeEvent [] [(10 : Nat), 20] 7
        (fun st : Nat => (st + 100, st + 1)) (fun l a st => st + l + a) 5).external = 246 :=
  have h := sendActorChangeEvent_snapshot [] [(10 : Nat), 20] 7
    (fun st : Nat => (st + 100, st + 1)) (fun l a st => st + l + a) 5
    (by decide) (fun s hs => Option.noConfusion hs)
  ⟨h.1, h.2.1, h.2.2.1, h.2.2.2.2⟩

/-- C10: with no actor-change listeners registered, `SendActorChangeEvent`
returns immediately: the registry is untouched (no entry is created and no
guard bit is set), the external state is untouched and the event arguments
are never computed. -/
theorem sendActorChangeEvent_noListeners {L A S : Type}
    (registry : List (Nat × Nat)) (formID : Nat)
    (prepareArguments : S → A × S) (eventMethod : L → A → S → S) (external : S) :
    SendActorChangeEvent (L := L) registry [] formID prepareArguments eventMethod external =
      ⟨registry, external, [], none⟩ := by
  rfl

/-! ### PluginInterface::AssignPresetToActor registry writes
(PluginInterface.cpp, lines 140-233)

Clearing (empty preset name): `registry.stateForActor.visit(formID, ...)`
reads the previous `presetIndex` and stores 0 into the bitfield.
Assigning (DoNotApplyMorphs path): `emplace_or_visit(formID,
fallbackActorState, ...)` where the fallback is a zero state with
`presetIndex = actorPresetIndex` and the visitor stores
`presetIndex = actorPresetIndex` into the existing packed word. -/

def AssignPresetToActorClearVisit (reg : List (Nat × Nat)) (formID : Nat) :
    List (Nat × Nat) × Nat :=
  (visitValue reg formID (fun s => ActorState.setPresetIndex s 0),
    match lookupState reg formID with
    | some s => ActorState.presetIndex s
    | none => 0)

def AssignPresetToActorStoreVisit (reg : List (Nat × Nat)) (formID actorPresetIndex : Nat) :
    List (Nat × Nat) :=
  match lookupState reg formID with
  | some _ => visitValue reg formID (fun s => ActorState.setPresetIndex s actorPresetIndex)
  | none => reg ++ [(formID, ActorState.setPresetIndex 0 actorPresetIndex)]

/-- C9: setting or clearing an entity's assigned preset index is a single
per-key visit that modifies only the `presetIndex` bitfield of the packed
state word: for every prior value `s` of the word, the re-entrancy bit and
the spare bits are unchanged, the preset-index field takes the stored
value, and no other key of the registry is touched. -/
theorem assignPresetToActor_visit_spec (reg : List (Nat × Nat)) (formID v s : Nat)
    (hlook : lookupState reg formID = some s) :
    (lookupState (AssignPresetToActorClearVisit reg formID).1 formID =
        some (ActorState.setPresetIndex s 0) ∧
      lookupState (AssignPresetToActorStoreVisit reg formID v) formID =
        some (ActorState.setPresetIndex s v)) ∧
    (∀ w : Nat,
      ActorState.actorChangeEventsAreBeingSent (ActorState.setPresetIndex w v) =
        ActorState.actorChangeEventsAreBeingSent w ∧
      ActorState.unusedSpareBitsForLaterUse (ActorState.setPresetIndex w v) =
        ActorState.unusedSpareBitsForLaterUse w ∧
      ActorState.presetIndex (ActorState.setPresetIndex w v) = v % 1048576) ∧
    (∀ g, g ≠ formID →
      lookupState (AssignPresetToActorClearVisit reg formID).1 g = lookupState reg g ∧
      lookupState (AssignPresetToActorStoreVisit reg formID v) g = lookupState reg g) := by
  refine ⟨⟨?_, ?_⟩, ?_, ?_⟩
  · unfold AssignPresetToActorClearVisit
    rw [lookup_visitValue_self, hlook, Option.map_some']
  · unfold AssignPresetToActorStoreVisit
    rw [hlook]
    rw [lookup_visitValue_self, hlook, Option.map_some']
  · intro w
    unfold ActorState.setPresetIndex ActorState.actorChangeEventsAreBeingSent
      ActorState.unusedSpareBitsForLaterUse ActorState.presetIndex
    refine ⟨by omega, by omega, by omega⟩
  · intro g hg
    constructor
    · unfold AssignPresetToActorClearVisit
      exact lookup_visitValue_other _ _ _ _ hg
    · unfold AssignPresetToActorStoreVisit
      rw [hlook]
      exact lookup_visitValue_other _ _ _ _ hg

/-- Witness for C9 at registry `{7 ↦ 4097}` (preset-index 1, guard bit set)
and stored index 3. -/
theorem assignPresetToActor_visit_spec_witness :
    (lookupState (AssignPresetToActorClearVisit [((7 : Nat), (4097 : Nat))] 7).1 7 =
        some (ActorState.setPresetIndex 4097 0) ∧
      lookupState (AssignPresetToActorStoreVisit [((7 : Nat), (4097 : Nat))] 7 3) 7 =
        some (ActorState.setPresetIndex 4097 3)) ∧
    (ActorState.actorChangeEventsAreBeingSent (ActorState.setPresetIndex 4097 3) =
        ActorState.actorChangeEventsAreBeingSent 4097 ∧
      ActorState.unusedSpareBitsForLaterUse (ActorState.setPresetIndex 4097 3) =
        ActorState.unusedSpareBitsForLaterUse 4097 ∧
      ActorState.presetIndex (ActorState.setPresetIndex 4097 3) = 3 % 1048576) ∧
    (lookupState (AssignPresetToActorClearVisit [((7 : Nat), (4097 : Nat))] 7).1 9 =
        lookupState [((7 : Nat), (4097 : Nat))] 9 ∧
      lookupState (AssignPresetToActorStoreVisit [((7 : Nat), (4097 : Nat))] 7 3) 9 =
        lookupState [((7 : Nat), (4097 : Nat))] 9) :=
  have h := assignPresetToActor_visit_spec [((7 : Nat), (4097 : Nat))] 7 3 4097 (by decide)
  ⟨h.1, h.2.1 4097, h.2.2 9 (by decide)⟩

/-! ### SaveFileState: preset-name-index-map record, version 0
(SaveFileState.cpp, lines 186-391; layout structs in SaveFileState.h)

Wire format per category: a 4-byte header `PresetNameIndexMapHeaderV0
{nextPresetIndex}`, then for each known preset a 4-byte `PresetNameLength`,
a 4-byte `StateForPresetNameV0 {presetIndex}` and the name bytes, the next
entry re-aligned to 4 bytes; a zero length terminates the category.  The
female category is written first, then the male one, sharing one buffer.

The writer is modelled with the buffer offset made explicit.  `AlignUpTo`
skips buffer positions without writing them, so those positions hold stale
data when flushed; the model emits `none` for them (`some b` for every
byte actually stored).  On a successful save every buffered byte reaches
the sink in FIFO order, so the model appends bytes at `memcpy` time and a
flush only resets the offset. -/

/-- `AlignUpTo(value, 4)` of SaveFileState.h (the bit trick
`(value + alignment - 1) & ~(alignment - 1)` for the power-of-two
alignments it is used with). -/
def AlignUpTo (value alignment : Nat) : Nat :=
  (value + alignment - 1) / alignment * alignment

structure WriterState where
  offset : Nat
  out : List (Option Nat)

def wput (st : WriterState) (bytes : List Nat) : WriterState :=
  ⟨st.offset + bytes.length, st.out ++ bytes.map some⟩

def wflush (st : WriterState) : WriterState := ⟨0, st.out⟩

def alignPad (st : WriterState) (alignment : Nat) : WriterState :=
  ⟨AlignUpTo st.offset alignment,
    st.out ++ List.replicate (AlignUpTo st.offset alignment - st.offset) none⟩

/-- The name-copy loop (SaveFileState.cpp lines 238-257): copy
`min(remainingNameBytes, BufferSize - offset)` bytes; when the buffer is
exactly full, flush and continue with the rest of the name.  `fuel`
strictly exceeds the name length, which bounds the iteration count. -/
def writeNameLoopFuel : Nat → WriterState → List Nat → WriterState
  | 0, st, _ => st
  | fuel + 1, st, name =>
      if st.offset + min name.length (BufferSize - st.offset) = BufferSize then
        writeNameLoopFuel fuel
          ⟨0, st.out ++ (name.take (min name.length (BufferSize - st.offset))).map some⟩
          (name.drop (min name.length (BufferSize - st.offset)))
      else wput st (name.take (min name.length (BufferSize - st.offset)))

def writeNameLoop (st : WriterState) (name : List Nat) : WriterState :=
  writeNameLoopFuel (name.length + 1) st name

/-- One iteration of the per-preset loop (lines 215-260): pre-flush when
fewer than `sizeof(PresetNameLength) + sizeof(StateForPresetNameV0)` bytes
remain, write the length, the `StateForPresetNameV0`, the name bytes, then
re-align the offset to 4. -/
def writeEntry (st : WriterState) (e : List Nat × Nat) : WriterState :=
  let st1 := if st.offset ≥ BufferSize - 8 then wflush st else st
  let st2 := wput st1 (le32 e.1.length)
  let st3 := wput st2 (le32 e.2)
  let st4 := writeNameLoop st3 e.1
  alignPad st4 4

/-- The `write` lambda of `WriteRecordDataForPresetNameIndexMapV0` for one
category (lines 190-276). -/
def writeCategory (st : WriterState) (nextIndex : Nat)
    (entries : List (List Nat × Nat)) : WriterState :=
  let st1 := if st.offset ≥ BufferSize - 4 then wflush st else st
  let st2 := wput st1 (le32 nextIndex)
  let st3 := entries.foldl writeEntry st2
  let st4 := if st3.offset ≥ BufferSize - 4 then wflush st3 else st3
  wput st4 (le32 0)

/-- The codec-relevant part of `PresetManager::PresetContainer`: the two
name→index maps (association lists of byte-string names) and the two
next-index counters. -/
structure PresetContainer where
  femalePresetIndexByName : List (List Nat × Nat)
  malePresetIndexByName : List (List Nat × Nat)
  nextFemalePresetIndex : Nat
  nextMalePresetIndex : Nat
deriving DecidableEq

/-- The bytes delivered to the sink by
`WriteRecordDataForPresetNameIndexMapV0` on a successful save (`none` =
alignment-padding byte of unspecified value). -/
def WriteRecordDataForPresetNameIndexMapV0 (pc : PresetContainer) : List (Option Nat) :=
  (writeCategory
    (writeCategory ⟨0, []⟩ pc.nextFemalePresetIndex pc.femalePresetIndexByName)
    pc.nextMalePresetIndex pc.malePresetIndexByName).out

def padLen (n : Nat) : Nat := AlignUpTo n 4 - n

def entryTemplate (e : List Nat × Nat) : List (Option Nat) :=
  (le32 e.1.length).map some ++ (le32 e.2).map some ++ e.1.map some ++
    List.replicate (padLen e.1.length) none

def catTemplate (nextIndex : Nat) (entries : List (List Nat × Nat)) : List (Option Nat) :=
  (le32 nextIndex).map some ++ entries.flatMap entryTemplate ++ (le32 0).map some

/-- Does a concrete byte stream agree with a written template on every
position the writer actually stored (`none` positions are the padding
bytes, whose stale values are unconstrained)? -/
def matchesBytes : List (Option Nat) → List Nat → Bool
  | [], [] => true
  | none :: t, _ :: b => matchesBytes t b
  | some x :: t, y :: b => x == y && matchesBytes t b
  | _, _ => false

/-! Reader side.  The reader state mirrors the C++ locals: the current
buffer contents, the read `offset` into it, the count of `remainingBytes`
not yet consumed, and the bytes of the record not yet handed out by
`ReadRecordData` (`rest`). -/

structure ReaderState where
  buf : List Nat
  offset : Nat
  remaining : Nat
  rest : List Nat

/-- The `getMoreBytes` lambda (lines 292-308): refill only when
`remainingBytes == 0`; zero refilled bytes or a refill size that is not a
multiple of `alignof(PresetNameIndexMapHeaderV0)` is a failure. -/
def getMoreBytes (st : ReaderState) : Option ReaderState :=
  if st.remaining = 0 then
    if (st.rest.take BufferSize).length = 0 then none
    else if (st.rest.take BufferSize).length % 4 ≠ 0 then none
    else some ⟨st.rest.take BufferSize, 0, (st.rest.take BufferSize).length,
      st.rest.drop BufferSize⟩
  else some st

/-- Read one 4-byte little-endian field: `getMoreBytes()`, check
`remainingBytes`, `memcpy` out of the buffer, advance. -/
def readU32 (st : ReaderState) : Option (Nat × ReaderState) :=
  match getMoreBytes st with
  | none => none
  | some st1 =>
      if st1.remaining < 4 then none
      else
        some (leVal4 (st1.buf.getD st1.offset 0) (st1.buf.getD (st1.offset + 1) 0)
            (st1.buf.getD (st1.offset + 2) 0) (st1.buf.getD (st1.offset + 3) 0),
          ⟨st1.buf, st1.offset + 4, st1.remaining - 4, st1.rest⟩)

/-- `offset = AlignUpTo(offset, alignof(PresetNameLength));
remainingBytes -= offset - unalignedOffset` (lines 367-369). -/
def skipPad (st : ReaderState) : ReaderState :=
  ⟨st.buf, AlignUpTo st.offset 4,
    st.remaining - (AlignUpTo st.offset 4 - st.offset), st.rest⟩

/-- The name-read loop (lines 350-363): take
`min(remainingNameBytes, remainingBytes)` bytes from the buffer, refill
when the name continues past the buffer.  `fuel` strictly exceeds the
name length. -/
def readNameLoopFuel : Nat → ReaderState → Nat → Option (List Nat × ReaderState)
  | 0, _, _ => none
  | fuel + 1, st, k =>
      if k = 0 then some ([], st)
      else
        match getMoreBytes st with
        | none => none
        | some st1 =>
            match readNameLoopFuel fuel
                ⟨st1.buf, st1.offset + min k st1.remaining,
                  st1.remaining - min k st1.remaining, st1.rest⟩
                (k - min k st1.remaining) with
            | none => none
            | some (more, st2) =>
                some ((st1.buf.drop st1.offset).take (min k st1.remaining) ++ more, st2)

def readNameLoop (st : ReaderState) (k : Nat) : Option (List Nat × ReaderState) :=
  readNameLoopFuel (k + 1) st k

/-- `indexByNameMap[presetName] = AssignedPresetIndex{...}` on the
association list. -/
def insertOrAssignName : List (List Nat × Nat) → List Nat → Nat → List (List Nat × Nat)
  | [], n, v => [(n, v)]
  | (k, w) :: rest, n, v =>
      if k = n then (k, v) :: rest else (k, w) :: insertOrAssignName rest n v

/-- The per-preset read loop (lines 324-372).  A failure returns the
entries decoded so far (the C++ mutates the map in place) with `false`;
reading the zero terminator returns `true`.  `fuel` strictly exceeds the
number of entries. -/
def readEntriesLoop : Nat → ReaderState → List (List Nat × Nat) →
    List (List Nat × Nat) × ReaderState × Bool
  | 0, st, acc => (acc, st, false)
  | fuel + 1, st, acc =>
      match readU32 st with
      | none => (acc, st, false)
      | some (len, st1) =>
          if len = 0 then (acc, st1, true)
          else
            match readU32 st1 with
            | none => (acc, st1, false)
            | some (idx, st2) =>
                match readNameLoop st2 len with
                | none => (acc, st2, false)
                | some (name, st3) =>
                    readEntriesLoop fuel (skipPad st3) (insertOrAssignName acc name idx)

/-- The `read` lambda for one category (lines 310-378): header (which
assigns the next-index counter before the entries are read), then the
entry loop. -/
def readCategoryV0 (st : ReaderState) (map0 : List (List Nat × Nat)) (next0 : Nat) :
    List (List Nat × Nat) × Nat × ReaderState × Bool :=
  match readU32 st with
  | none => (map0, next0, st, false)
  | some (next, st1) =>
      match readEntriesLoop (st1.remaining + st1.rest.length + 1) st1 map0 with
      | (m, st2, ok) => (m, next, st2, ok)

def ReadRecordDataForPresetNameIndexMapV0 (stream : List Nat) (pc : PresetContainer) :
    PresetContainer × Bool :=
  match readCategoryV0 ⟨[], 0, 0, stream⟩ pc.femalePresetIndexByName
      pc.nextFemalePresetIndex with
  | (fm, fn, st1, ok1) =>
      if ok1 then
        match readCategoryV0 st1 pc.malePresetIndexByName pc.nextMalePresetIndex with
        | (mm, mn, _, ok2) =>
            (⟨fm, mm, fn, mn⟩, ok2)
      else (⟨fm, pc.malePresetIndexByName, fn, pc.nextMalePresetIndex⟩, false)

/-! Writer correspondence: on any run the category writer emits exactly the
template bytes, with the buffer offset re-entering the `[0, BufferSize]`
window 4-aligned after every field. -/

theorem writeNameLoopFuel_spec (fuel : Nat) :
    ∀ (st : WriterState) (name : List Nat), name.length < fuel → st.offset < BufferSize →
      writeNameLoopFuel fuel st name =
        ⟨(st.offset + name.length) % BufferSize, st.out ++ name.map some⟩ := by
  induction fuel with
  | zero => intro st name h _; omega
  | succ fuel ih =>
      intro st name hfuel hoff
      have hBpos : (0 : Nat) < BufferSize := by unfold BufferSize; omega
      unfold writeNameLoopFuel
      by_cases hfull : st.offset + min name.length (BufferSize - st.offset) = BufferSize
      · rw [if_pos hfull]
        rw [ih _ _ (by simp only [List.length_drop]; omega) hBpos]
        congr 1
        · simp only [List.length_drop]
          unfold BufferSize at *
          omega
        · rw [List.append_assoc, ← List.map_append, List.take_append_drop]
      · rw [if_neg hfull]
        have hmin : min name.length (BufferSize - st.offset) = name.length := by omega
        unfold wput
        congr 1
        · rw [hmin, List.length_take]
          unfold BufferSize at *
          omega
        · rw [hmin, List.take_length]

theorem writeEntry_spec (st : WriterState) (e : List Nat × Nat)
    (h4 : st.offset % 4 = 0) (hle : st.offset ≤ BufferSize) :
    ∃ o, writeEntry st e = ⟨o, st.out ++ entryTemplate e⟩ ∧ o % 4 = 0 ∧ o ≤ BufferSize := by
  obtain ⟨o1, ho1, ho1m, ho1lt⟩ : ∃ o1,
      (if st.offset ≥ BufferSize - 8 then wflush st else st) = ⟨o1, st.out⟩ ∧
        o1 % 4 = 0 ∧ o1 < BufferSize - 8 := by
    by_cases h : st.offset ≥ BufferSize - 8
    · exact ⟨0, by simp [wflush, h], by omega, by unfold BufferSize; omega⟩
    · exact ⟨st.offset, by simp [h], h4, by omega⟩
  unfold writeEntry
  rw [ho1]
  show ∃ o, alignPad (writeNameLoop (wput (wput ⟨o1, st.out⟩ (le32 e.1.length)) (le32 e.2))
      e.1) 4 = ⟨o, st.out ++ entryTemplate e⟩ ∧ o % 4 = 0 ∧ o ≤ BufferSize
  have hput : wput (wput ⟨o1, st.out⟩ (le32 e.1.length)) (le32 e.2) =
      ⟨o1 + 8, st.out ++ (le32 e.1.length).map some ++ (le32 e.2).map some⟩ := rfl
  rw [hput]
  unfold writeNameLoop
  rw [writeNameLoopFuel_spec _ _ _ (by omega) (by show o1 + 8 < BufferSize; omega)]
  show ∃ o, alignPad ⟨(o1 + 8 + e.1.length) % BufferSize,
      st.out ++ (le32 e.1.length).map some ++ (le32 e.2).map some ++ e.1.map some⟩ 4 =
      ⟨o, st.out ++ entryTemplate e⟩ ∧ o % 4 = 0 ∧ o ≤ BufferSize
  unfold alignPad
  refine ⟨AlignUpTo ((o1 + 8 + e.1.length) % BufferSize) 4, ?_, ?_, ?_⟩
  · congr 1
    have hpad : AlignUpTo ((o1 + 8 + e.1.length) % BufferSize) 4 -
        (o1 + 8 + e.1.length) % BufferSize = padLen e.1.length := by
      unfold padLen AlignUpTo BufferSize at *
      omega
    rw [hpad]
    simp only [entryTemplate, List.append_assoc]
  · show AlignUpTo _ 4 % 4 = 0
    unfold AlignUpTo
    omega
  · show AlignUpTo ((o1 + 8 + e.1.length) % BufferSize) 4 ≤ BufferSize
    unfold AlignUpTo BufferSize at *
    omega

theorem foldl_writeEntry_spec (entries : List (List Nat × Nat)) :
    ∀ st : WriterState, st.offset % 4 = 0 → st.offset ≤ BufferSize →
      ∃ o, entries.foldl writeEntry st = ⟨o, st.out ++ entries.flatMap entryTemplate⟩ ∧
        o % 4 = 0 ∧ o ≤ BufferSize := by
  induction entries with
  | nil =>
      intro st h4 hle
      exact ⟨st.offset, by simp, h4, hle⟩
  | cons e rest ih =>
      intro st h4 hle
      obtain ⟨o1, ho1, ho1m, ho1le⟩ := writeEntry_spec st e h4 hle
      obtain ⟨o2, ho2, ho2m, ho2le⟩ := ih ⟨o1, st.out ++ entryTemplate e⟩ ho1m ho1le
      refine ⟨o2, ?_, ho2m, ho2le⟩
      rw [List.foldl_cons, ho1, ho2]
      simp

theorem writeCategory_spec (st : WriterState) (nextIndex : Nat)
    (entries : List (List Nat × Nat)) (h4 : st.offset % 4 = 0) (hle : st.offset ≤ BufferSize) :
    ∃ o, writeCategory st nextIndex entries =
        ⟨o, st.out ++ catTemplate nextIndex entries⟩ ∧ o % 4 = 0 ∧ o ≤ BufferSize := by
  obtain ⟨o1, ho1, ho1m, ho1lt⟩ : ∃ o1,
      (if st.offset ≥ BufferSize - 4 then wflush st else st) = ⟨o1, st.out⟩ ∧
        o1 % 4 = 0 ∧ o1 < BufferSize - 4 := by
    by_cases h : st.offset ≥ BufferSize - 4
    · exact ⟨0, by simp [wflush, h], by omega, by unfold BufferSize; omega⟩
    · exact ⟨st.offset, by simp [h], h4, by omega⟩
  have hterm : ∀ (o2 : Nat) (out2 : List (Option Nat)), o2 % 4 = 0 →
      ∃ o3, (if (WriterState.mk o2 out2).offset ≥ BufferSize - 4 then
          wflush ⟨o2, out2⟩ else ⟨o2, out2⟩) = ⟨o3, out2⟩ ∧ o3 % 4 = 0 ∧
        o3 < BufferSize - 4 := by
    intro o2 out2 h2m
    by_cases h : o2 ≥ BufferSize - 4
    · exact ⟨0, by simp [wflush, h], by omega, by unfold BufferSize; omega⟩
    · exact ⟨o2, by simp [h], h2m, by omega⟩
  unfold writeCategory
  rw [ho1]
  show ∃ o, wput
      (if (entries.foldl writeEntry (wput ⟨o1, st.out⟩ (le32 nextIndex))).offset ≥
          BufferSize - 4 then
        wflush (entries.foldl writeEntry (wput ⟨o1, st.out⟩ (le32 nextIndex)))
      else entries.foldl writeEntry (wput ⟨o1, st.out⟩ (le32 nextIndex))) (le32 0) =
      ⟨o, st.out ++ catTemplate nextIndex entries⟩ ∧ o % 4 = 0 ∧ o ≤ BufferSize
  have hput : wput ⟨o1, st.out⟩ (le32 nextIndex) =
      ⟨o1 + 4, st.out ++ (le32 nextIndex).map some⟩ := rfl
  rw [hput]
  obtain ⟨o2, ho2, ho2m, ho2le⟩ := foldl_writeEntry_spec entries
    ⟨o1 + 4, st.out ++ (le32 nextIndex).map some⟩ (by show (o1 + 4) % 4 = 0; omega)
    (by show o1 + 4 ≤ BufferSize; omega)
  rw [ho2]
  obtain ⟨o3, ho3, ho3m, ho3lt⟩ := hterm o2 _ ho2m
  rw [ho3]
  refine ⟨o3 + 4, ?_, by omega, by unfold BufferSize at *; omega⟩
  show wput _ (le32 0) = _
  unfold wput catTemplate
  congr 1
  simp [List.append_assoc]

theorem writePresetNameIndexMap_template (pc : PresetContainer) :
    WriteRecordDataForPresetNameIndexMapV0 pc =
      catTemplate pc.nextFemalePresetIndex pc.femalePresetIndexByName ++
        catTemplate pc.nextMalePresetIndex pc.malePresetIndexByName := by
  obtain ⟨o1, ho1, ho1m, ho1le⟩ := writeCategory_spec ⟨0, []⟩ pc.nextFemalePresetIndex
    pc.femalePresetIndexByName (by show (0 : Nat) % 4 = 0; rfl)
    (by show (0 : Nat) ≤ BufferSize; omega)
  obtain ⟨o2, ho2, _, _⟩ := writeCategory_spec
    ⟨o1, ([] : List (Option Nat)) ++ catTemplate pc.nextFemalePresetIndex
      pc.femalePresetIndexByName⟩ pc.nextMalePresetIndex pc.malePresetIndexByName ho1m ho1le
  unfold WriteRecordDataForPresetNameIndexMapV0
  rw [ho1, ho2]
  simp

theorem entryTemplate_length_mod (e : List Nat × Nat) : (entryTemplate e).length % 4 = 0 := by
  unfold entryTemplate padLen AlignUpTo
  simp only [List.length_append, List.length_map, List.length_replicate, le32_length]
  omega

theorem flatMap_entryTemplate_length_mod (entries : List (List Nat × Nat)) :
    (entries.flatMap entryTemplate).length % 4 = 0 := by
  induction entries with
  | nil => rfl
  | cons e rest ih =>
      simp only [List.flatMap_cons, List.length_append]
      have := entryTemplate_length_mod e
      omega

theorem catTemplate_length_mod (nextIndex : Nat) (entries : List (List Nat × Nat)) :
    (catTemplate nextIndex entries).length % 4 = 0 := by
  unfold catTemplate
  simp only [List.length_append, List.length_map, le32_length]
  have := flatMap_entryTemplate_length_mod entries
  omega

theorem flatMap_entryTemplate_length_ge (entries : List (List Nat × Nat)) :
    entries.length ≤ (entries.flatMap entryTemplate).length := by
  induction entries with
  | nil => simp
  | cons e rest ih =>
      simp only [List.flatMap_cons, List.length_append, List.length_cons]
      have : 8 ≤ (entryTemplate e).length := by
        unfold entryTemplate
        simp only [List.length_append, List.length_map, le32_length]
        omega
      omega

theorem matchesBytes_length (t : List (Option Nat)) :
    ∀ bs : List Nat, matchesBytes t bs = true → bs.length = t.length := by
  induction t with
  | nil =>
      intro bs h
      cases bs with
      | nil => rfl
      | cons y b => simp [matchesBytes] at h
  | cons o t ih =>
      intro bs h
      cases bs with
      | nil => cases o <;> simp [matchesBytes] at h
      | cons y b =>
          cases o with
          | none =>
              simp only [matchesBytes] at h
              simp [ih b h]
          | some x =>
              simp only [matchesBytes, Bool.and_eq_true] at h
              simp [ih b h.2]

theorem matchesBytes_append_split (t1 t2 : List (Option Nat)) :
    ∀ bs : List Nat, matchesBytes (t1 ++ t2) bs = true →
      ∃ b1 b2, bs = b1 ++ b2 ∧ matchesBytes t1 b1 = true ∧ matchesBytes t2 b2 = true := by
  induction t1 with
  | nil =>
      intro bs h
      exact ⟨[], bs, rfl, rfl, h⟩
  | cons o t1 ih =>
      intro bs h
      cases bs with
      | nil => cases o <;> simp [matchesBytes] at h
      | cons y b =>
          cases o with
          | none =>
              simp only [List.cons_append, matchesBytes] at h
              obtain ⟨b1, b2, hb, h1, h2⟩ := ih b h
              exact ⟨y :: b1, b2, by simp [hb], by simp [matchesBytes, h1], h2⟩
          | some x =>
              simp only [List.cons_append, matchesBytes, Bool.and_eq_true] at h
              obtain ⟨b1, b2, hb, h1, h2⟩ := ih b h.2
              refine ⟨y :: b1, b2, by simp [hb], ?_, h2⟩
              simp [matchesBytes, h1, h.1]

theorem matchesBytes_map_some (l : List Nat) :
    ∀ bs : List Nat, matchesBytes (l.map some) bs = true → bs = l := by
  induction l with
  | nil =>
      intro bs h
      cases bs with
      | nil => rfl
      | cons y b => simp [matchesBytes] at h
  | cons x l ih =>
      intro bs h
      cases bs with
      | nil => simp [matchesBytes] at h
      | cons y b =>
          simp only [List.map_cons, matchesBytes, Bool.and_eq_true] at h
          have hxy : x = y := by simpa using h.1
          rw [ih b h.2, hxy]

theorem matchesBytes_getD (t : List (Option Nat)) :
    matchesBytes t (t.map (fun o => o.getD 0)) = true := by
  induction t with
  | nil => rfl
  | cons o t ih =>
      cases o with
      | none => simpa [matchesBytes] using ih
      | some x => simp [matchesBytes, ih]

/-! Reader correspondence.  `streamOf st` is the part of the record the
reader has not yet consumed: the unread tail of the buffer followed by the
bytes not yet refilled.  `RInv` is the running invariant: `remainingBytes`
counts the unread buffer tail, and both the refilled chunk and the
unrefilled tail have 4-aligned lengths. -/

def streamOf (st : ReaderState) : List Nat :=
  (st.buf.drop st.offset).take st.remaining ++ st.rest

def RInv (st : ReaderState) : Prop :=
  st.offset + st.remaining = st.buf.length ∧ st.buf.length % 4 = 0 ∧
    st.rest.length % 4 = 0

theorem streamOf_length (st : ReaderState) (h : st.offset + st.remaining = st.buf.length) :
    (streamOf st).length = st.remaining + st.rest.length := by
  unfold streamOf
  simp only [List.length_append, List.length_take, List.length_drop]
  omega

theorem getMoreBytes_spec (st : ReaderState) (hinv : RInv st) (hne : streamOf st ≠ []) :
    ∃ st', getMoreBytes st = some st' ∧ RInv st' ∧ streamOf st' = streamOf st ∧
      0 < st'.remaining ∧ st'.offset % 4 = st.offset % 4 := by
  obtain ⟨h1, h2, h3⟩ := hinv
  by_cases hr : st.remaining = 0
  · have hbuf : (st.buf.drop st.offset).take st.remaining = [] := by
      rw [hr]; rfl
    have hrest : st.rest ≠ [] := by
      intro h
      apply hne
      unfold streamOf
      rw [hbuf, h]
      rfl
    have hrlen : 0 < st.rest.length := List.length_pos.mpr hrest
    have htlen : (st.rest.take BufferSize).length = min BufferSize st.rest.length :=
      List.length_take _ _
    have htpos : (st.rest.take BufferSize).length ≠ 0 := by
      rw [htlen]; unfold BufferSize; omega
    have htmod : (st.rest.take BufferSize).length % 4 = 0 := by
      rw [htlen]; unfold BufferSize at *; omega
    refine ⟨⟨st.rest.take BufferSize, 0, (st.rest.take BufferSize).length,
      st.rest.drop BufferSize⟩, ?_, ⟨by simp, htmod, ?_⟩, ?_, by simp; omega, ?_⟩
    · unfold getMoreBytes
      rw [if_pos hr, if_neg htpos,
        if_neg (show ¬(st.rest.take BufferSize).length % 4 ≠ 0 by omega)]
    · simp only [List.length_drop]
      unfold BufferSize at *
      omega
    · show (st.rest.take BufferSize).take _ ++ st.rest.drop BufferSize = streamOf st
      rw [List.take_take]
      unfold streamOf
      rw [hbuf]
      simp only [List.nil_append]
      have hmin : min (st.rest.take BufferSize).length BufferSize =
          min BufferSize st.rest.length := by
        rw [htlen]; omega
      rw [hmin]
      have htk : List.take (min BufferSize st.rest.length) st.rest =
          List.take BufferSize st.rest := by
        rcases le_or_lt BufferSize st.rest.length with h | h
        · rw [Nat.min_eq_left h]
        · rw [Nat.min_eq_right (Nat.le_of_lt h), List.take_length,
            List.take_of_length_le (Nat.le_of_lt h)]
      rw [htk, List.take_append_drop]
    · show 0 % 4 = st.offset % 4
      omega
  · refine ⟨st, ?_, ⟨h1, h2, h3⟩, rfl, by omega, rfl⟩
    unfold getMoreBytes
    rw [if_neg hr]

theorem streamOf_consume (st : ReaderState) (n : Nat)
    (h1 : st.offset + st.remaining = st.buf.length) (hn : n ≤ st.remaining) :
    streamOf ⟨st.buf, st.offset + n, st.remaining - n, st.rest⟩ = (streamOf st).drop n := by
  unfold streamOf
  have hlen : ((st.buf.drop st.offset).take st.remaining).length = st.remaining := by
    simp only [List.length_take, List.length_drop]
    omega
  rw [List.drop_append_of_le_length (by rw [hlen]; exact hn)]
  rw [List.drop_take, List.drop_drop]

theorem streamOf_take (st : ReaderState) (n : Nat)
    (h1 : st.offset + st.remaining = st.buf.length) (hn : n ≤ st.remaining) :
    (streamOf st).take n = (st.buf.drop st.offset).take n := by
  unfold streamOf
  have hlen : ((st.buf.drop st.offset).take st.remaining).length = st.remaining := by
    simp only [List.length_take, List.length_drop]
    omega
  rw [List.take_append_of_le_length (by rw [hlen]; exact hn)]
  rw [List.take_take, Nat.min_eq_left hn]

theorem getD_drop_nat (l : List Nat) : ∀ (k i : Nat), l.getD (k + i) 0 = (l.drop k).getD i 0 := by
  induction l with
  | nil => intro k i; simp
  | cons a t ih =>
      intro k i
      cases k with
      | zero => simp
      | succ k =>
          have h1 : (a :: t).getD (k + 1 + i) 0 = t.getD (k + i) 0 := by
            have : k + 1 + i = (k + i) + 1 := by omega
            rw [this]
            rfl
          rw [h1, ih k i]
          rfl

theorem readU32_spec (st : ReaderState) (b0 b1 b2 b3 : Nat) (r : List Nat)
    (hinv : RInv st) (h4 : st.offset % 4 = 0)
    (hs : streamOf st = b0 :: b1 :: b2 :: b3 :: r) :
    ∃ st', readU32 st = some (leVal4 b0 b1 b2 b3, st') ∧ RInv st' ∧ st'.offset % 4 = 0 ∧
      streamOf st' = r := by
  obtain ⟨st1, hg, hinv1, hsame, hpos, hoff⟩ := getMoreBytes_spec st hinv (by rw [hs]; simp)
  obtain ⟨i1, i2, i3⟩ := hinv1
  have hrem4 : 4 ≤ st1.remaining := by omega
  have hs1 : streamOf st1 = b0 :: b1 :: b2 :: b3 :: r := by rw [hsame, hs]
  have htake : (st1.buf.drop st1.offset).take 4 = [b0, b1, b2, b3] := by
    rw [← streamOf_take st1 4 i1 hrem4, hs1]
    rfl
  have hdropbuf : st1.buf.drop st1.offset =
      b0 :: b1 :: b2 :: b3 :: (st1.buf.drop st1.offset).drop 4 := by
    conv_lhs => rw [← List.take_append_drop 4 (st1.buf.drop st1.offset)]
    rw [htake]
    rfl
  have hget : ∀ i : Nat, st1.buf.getD (st1.offset + i) 0 =
      (st1.buf.drop st1.offset).getD i 0 := fun i => getD_drop_nat st1.buf st1.offset i
  have hb0 : st1.buf.getD st1.offset 0 = b0 := by
    have := hget 0
    rw [Nat.add_zero] at this
    rw [this, hdropbuf]
    rfl
  have hb1 : st1.buf.getD (st1.offset + 1) 0 = b1 := by rw [hget 1, hdropbuf]; rfl
  have hb2 : st1.buf.getD (st1.offset + 2) 0 = b2 := by rw [hget 2, hdropbuf]; rfl
  have hb3 : st1.buf.getD (st1.offset + 3) 0 = b3 := by rw [hget 3, hdropbuf]; rfl
  refine ⟨⟨st1.buf, st1.offset + 4, st1.remaining - 4, st1.rest⟩, ?_,
    ⟨show st1.offset + 4 + (st1.remaining - 4) = st1.buf.length by omega, i2, i3⟩,
    show (st1.offset + 4) % 4 = 0 by omega, ?_⟩
  · unfold readU32
    simp only [hg]
    rw [if_neg (show ¬st1.remaining < 4 by omega)]
    rw [hb0, hb1, hb2, hb3]
  · rw [streamOf_consume st1 4 i1 hrem4, hs1]
    rfl

theorem readNameLoopFuel_spec (fuel : Nat) :
    ∀ (st : ReaderState) (name r : List Nat), name.length < fuel → RInv st →
      streamOf st = name ++ r →
      ∃ st', readNameLoopFuel fuel st name.length = some (name, st') ∧ RInv st' ∧
        streamOf st' = r ∧ st'.offset % 4 = (st.offset + name.length) % 4 := by
  induction fuel with
  | zero => intro st name r h _ _; omega
  | succ fuel ih =>
      intro st name r hfuel hinv hs
      by_cases hnil : name.length = 0
      · have : name = [] := List.length_eq_zero.mp hnil
        subst this
        refine ⟨st, ?_, hinv, by simpa using hs, by omega⟩
        simp [readNameLoopFuel]
      · obtain ⟨st1, hg, hinv1, hsame, hpos, hoff⟩ := getMoreBytes_spec st hinv
          (by rw [hs]
              have hname : name ≠ [] := fun h => hnil (by rw [h]; rfl)
              exact fun hcontra => hname (List.append_eq_nil.mp hcontra).1)
        obtain ⟨i1, i2, i3⟩ := hinv1
        have hs1 : streamOf st1 = name ++ r := by rw [hsame, hs]
        have hmin : min name.length st1.remaining ≤ st1.remaining := min_le_right _ _
        have hminname : min name.length st1.remaining ≤ name.length := min_le_left _ _
        have htake : (st1.buf.drop st1.offset).take (min name.length st1.remaining) =
            name.take (min name.length st1.remaining) := by
          rw [← streamOf_take st1 _ i1 hmin, hs1,
            List.take_append_of_le_length hminname]
        have hconsume : streamOf ⟨st1.buf, st1.offset + min name.length st1.remaining,
            st1.remaining - min name.length st1.remaining, st1.rest⟩ =
            name.drop (min name.length st1.remaining) ++ r := by
          rw [streamOf_consume st1 _ i1 hmin, hs1,
            List.drop_append_of_le_length hminname]
        have hdroplen : (name.drop (min name.length st1.remaining)).length =
            name.length - min name.length st1.remaining := by
          simp
        obtain ⟨st2, hrec, hinv2, hs2, hoff2⟩ := ih
          ⟨st1.buf, st1.offset + min name.length st1.remaining,
            st1.remaining - min name.length st1.remaining, st1.rest⟩
          (name.drop (min name.length st1.remaining)) r
          (by rw [hdroplen]
              have hm1 : 0 < min name.length st1.remaining := lt_min (by omega) hpos
              exact Nat.lt_of_lt_of_le (Nat.sub_lt (by omega) hm1) (by omega))
          ⟨show st1.offset + min name.length st1.remaining +
              (st1.remaining - min name.length st1.remaining) = st1.buf.length by omega,
            i2, i3⟩
          hconsume
        refine ⟨st2, ?_, hinv2, hs2, ?_⟩
        · unfold readNameLoopFuel
          rw [if_neg hnil]
          simp only [hg]
          rw [hdroplen] at hrec
          simp only [hrec]
          rw [htake, List.take_append_drop]
        · rw [hoff2]
          show (st1.offset + min name.length st1.remaining +
            (name.drop (min name.length st1.remaining)).length) % 4 =
            (st.offset + name.length) % 4
          rw [hdroplen]
          omega

theorem skipPad_spec (st : ReaderState) (pad r : List Nat)
    (hinv : RInv st) (hpad : pad.length = AlignUpTo st.offset 4 - st.offset)
    (hs : streamOf st = pad ++ r) :
    RInv (skipPad st) ∧ (skipPad st).offset % 4 = 0 ∧ streamOf (skipPad st) = r := by
  obtain ⟨h1, h2, h3⟩ := hinv
  have halign : st.offset ≤ AlignUpTo st.offset 4 ∧ AlignUpTo st.offset 4 ≤ st.buf.length ∧
      AlignUpTo st.offset 4 % 4 = 0 := by
    unfold AlignUpTo
    omega
  have hp : AlignUpTo st.offset 4 = st.offset + pad.length := by omega
  have hple : pad.length ≤ st.remaining := by omega
  have hstep : skipPad st = ⟨st.buf, st.offset + pad.length,
      st.remaining - pad.length, st.rest⟩ := by
    unfold skipPad
    rw [hp]
    congr 1
    omega
  rw [hstep]
  refine ⟨⟨show st.offset + pad.length + (st.remaining - pad.length) = st.buf.length
    by omega, h2, h3⟩, show (st.offset + pad.length) % 4 = 0 by omega, ?_⟩
  rw [streamOf_consume st pad.length h1 hple, hs, List.drop_left]

theorem matchesBytes_entryTemplate (e : List Nat × Nat) (bs : List Nat)
    (h : matchesBytes (entryTemplate e) bs = true) :
    ∃ pad, pad.length = padLen e.1.length ∧
      bs = le32 e.1.length ++ (le32 e.2 ++ (e.1 ++ pad)) := by
  unfold entryTemplate at h
  rw [List.append_assoc, List.append_assoc] at h
  obtain ⟨c1, c2, hbs, hm1, hm2⟩ := matchesBytes_append_split _ _ _ h
  obtain ⟨c3, c4, hc2, hm3, hm4⟩ := matchesBytes_append_split _ _ _ hm2
  obtain ⟨c5, c6, hc4, hm5, hm6⟩ := matchesBytes_append_split _ _ _ hm4
  refine ⟨c6, ?_, ?_⟩
  · have := matchesBytes_length _ _ hm6
    simpa using this
  · rw [hbs, hc2, hc4, matchesBytes_map_some _ _ hm1, matchesBytes_map_some _ _ hm3,
      matchesBytes_map_some _ _ hm5]

theorem le32_cons (x : Nat) (r : List Nat) :
    le32 x ++ r = x % 256 :: x / 256 % 256 :: x / 65536 % 256 :: x / 16777216 % 256 :: r := rfl

theorem leVal4_le32_eq (x : Nat) (h : x < 4294967296) :
    leVal4 (x % 256) (x / 256 % 256) (x / 65536 % 256) (x / 16777216 % 256) = x :=
  leVal4_le32 x h

theorem readEntriesLoop_spec (entries : List (List Nat × Nat)) :
    ∀ (fuel : Nat) (st : ReaderState) (acc : List (List Nat × Nat)) (bs r : List Nat),
      entries.length < fuel →
      (∀ e ∈ entries, e.1 ≠ [] ∧ e.1.length < 4294967296 ∧ e.2 < 4294967296) →
      RInv st → st.offset % 4 = 0 →
      matchesBytes (entries.flatMap entryTemplate) bs = true →
      streamOf st = bs ++ ([0, 0, 0, 0] : List Nat) ++ r →
      ∃ st', readEntriesLoop fuel st acc =
          (entries.foldl (fun m e => insertOrAssignName m e.1 e.2) acc, st', true) ∧
        RInv st' ∧ st'.offset % 4 = 0 ∧ streamOf st' = r := by
  induction entries with
  | nil =>
      intro fuel st acc bs r hfuel _ hinv h4 hm hs
      obtain ⟨f, rfl⟩ : ∃ f, fuel = f + 1 := ⟨fuel - 1, by omega⟩
      have hbs : bs = [] := by
        have := matchesBytes_length _ _ hm
        simpa [List.length_eq_zero] using this
      subst hbs
      obtain ⟨st1, hrd, hinv1, ho1, hs1⟩ := readU32_spec st 0 0 0 0 r hinv h4 (by simpa using hs)
      refine ⟨st1, ?_, hinv1, ho1, hs1⟩
      unfold readEntriesLoop
      simp only [hrd]
      rw [if_pos (show leVal4 0 0 0 0 = 0 from rfl)]
      rfl
  | cons e rest ih =>
      intro fuel st acc bs r hfuel hents hinv h4 hm hs
      obtain ⟨f, rfl⟩ : ∃ f, fuel = f + 1 := ⟨fuel - 1, by omega⟩
      obtain ⟨he1, he2, he3⟩ := hents e (List.mem_cons_self _ _)
      simp only [List.flatMap_cons] at hm
      obtain ⟨b1, b2, hbs, hm1, hm2⟩ := matchesBytes_append_split _ _ _ hm
      obtain ⟨pad, hpadlen, hb1⟩ := matchesBytes_entryTemplate e b1 hm1
      subst hbs hb1
      rw [show (le32 e.1.length ++ (le32 e.2 ++ (e.1 ++ pad)) ++ b2 ++ [0, 0, 0, 0] ++ r : List Nat) =
        le32 e.1.length ++ (le32 e.2 ++ (e.1 ++ (pad ++ (b2 ++ ([0, 0, 0, 0] ++ r))))) by
          simp [List.append_assoc]] at hs
      rw [le32_cons] at hs
      obtain ⟨st1, hrd1, hinv1, ho1, hs1⟩ := readU32_spec st _ _ _ _ _ hinv h4 hs
      rw [le32_cons] at hs1
      obtain ⟨st2, hrd2, hinv2, ho2, hs2⟩ := readU32_spec st1 _ _ _ _ _ hinv1 ho1 hs1
      obtain ⟨st3, hrd3, hinv3, hs3, ho3⟩ :=
        readNameLoopFuel_spec (e.1.length + 1) st2 e.1
          (pad ++ (b2 ++ ([0, 0, 0, 0] ++ r))) (by omega) hinv2 hs2
      have hpadlen3 : pad.length = AlignUpTo st3.offset 4 - st3.offset := by
        rw [hpadlen]
        unfold padLen AlignUpTo
        omega
      obtain ⟨hinv4, ho4, hs4⟩ := skipPad_spec st3 pad (b2 ++ ([0, 0, 0, 0] ++ r))
        hinv3 hpadlen3 hs3
      obtain ⟨st5, hrec, hinv5, ho5, hs5⟩ := ih f (skipPad st3)
        (insertOrAssignName acc e.1 e.2) b2 r (by simp at hfuel; omega)
        (fun x hx => hents x (List.mem_cons_of_mem _ hx)) hinv4 ho4 hm2
        (by rw [hs4]; simp [List.append_assoc])
      refine ⟨st5, ?_, hinv5, ho5, hs5⟩
      unfold readEntriesLoop
      simp only [hrd1]
      rw [leVal4_le32_eq e.1.length he2]
      rw [if_neg (show ¬e.1.length = 0 from fun hc => he1 (List.length_eq_zero.mp hc))]
      simp only [hrd2]
      rw [leVal4_le32_eq e.2 he3]
      have hrd3w : readNameLoop st2 e.1.length = some (e.1, st3) := hrd3
      simp only [hrd3w]
      rw [hrec]
      rfl

theorem readCategoryV0_spec (st : ReaderState) (map0 : List (List Nat × Nat)) (next0 : Nat)
    (next : Nat) (entries : List (List Nat × Nat)) (bs r : List Nat)
    (hinv : RInv st) (h4 : st.offset % 4 = 0) (hnext : next < 4294967296)
    (hents : ∀ e ∈ entries, e.1 ≠ [] ∧ e.1.length < 4294967296 ∧ e.2 < 4294967296)
    (hm : matchesBytes (catTemplate next entries) bs = true)
    (hs : streamOf st = bs ++ r) :
    ∃ st', readCategoryV0 st map0 next0 =
        (entries.foldl (fun m e => insertOrAssignName m e.1 e.2) map0, next, st', true) ∧
      RInv st' ∧ st'.offset % 4 = 0 ∧ streamOf st' = r := by
  unfold catTemplate at hm
  rw [List.append_assoc] at hm
  obtain ⟨c1, c2, hbs, hm1, hm2⟩ := matchesBytes_append_split _ _ _ hm
  obtain ⟨c3, c4, hc2, hm3, hm4⟩ := matchesBytes_append_split _ _ _ hm2
  have hc1 : c1 = le32 next := matchesBytes_map_some _ _ hm1
  have hc4 : c4 = le32 0 := matchesBytes_map_some _ _ hm4
  subst hbs hc2 hc1 hc4
  rw [show (le32 next ++ (c3 ++ le32 0) ++ r : List Nat) =
      le32 next ++ (c3 ++ ([0, 0, 0, 0] ++ r)) by simp [le32, List.append_assoc]] at hs
  rw [le32_cons] at hs
  obtain ⟨st1, hrd1, hinv1, ho1, hs1⟩ := readU32_spec st _ _ _ _ _ hinv h4 hs
  have hslen : st1.remaining + st1.rest.length = (streamOf st1).length :=
    (streamOf_length st1 hinv1.1).symm
  have hentlen : entries.length < st1.remaining + st1.rest.length + 1 := by
    have h1 := matchesBytes_length _ _ hm3
    have h2 := flatMap_entryTemplate_length_ge entries
    have h3 : (streamOf st1).length = c3.length + (4 + r.length) := by
      rw [hs1]
      simp
      omega
    omega
  obtain ⟨st2, hrec, hinv2, ho2, hs2⟩ := readEntriesLoop_spec entries
    (st1.remaining + st1.rest.length + 1) st1 map0 c3 r hentlen hents hinv1 ho1 hm3
    (by rw [hs1]; simp [List.append_assoc])
  refine ⟨st2, ?_, hinv2, ho2, hs2⟩
  unfold readCategoryV0
  simp only [hrd1]
  rw [leVal4_le32_eq next hnext]
  simp only [hrec]

theorem insertOrAssignName_of_not_mem (m : List (List Nat × Nat)) (n : List Nat) (v : Nat)
    (h : ∀ e ∈ m, e.1 ≠ n) : insertOrAssignName m n v = m ++ [(n, v)] := by
  induction m with
  | nil => rfl
  | cons e rest ih =>
      obtain ⟨k, w⟩ := e
      have hk : k ≠ n := h (k, w) (List.mem_cons_self _ _)
      simp only [insertOrAssignName, if_neg hk, List.cons_append]
      rw [ih (fun e he => h e (List.mem_cons_of_mem _ he))]

theorem foldl_insertOrAssignName_fresh (entries : List (List Nat × Nat)) :
    ∀ acc : List (List Nat × Nat),
      entries.Pairwise (fun a b => a.1 ≠ b.1) →
      (∀ e ∈ entries, ∀ a ∈ acc, a.1 ≠ e.1) →
      entries.foldl (fun m e => insertOrAssignName m e.1 e.2) acc = acc ++ entries := by
  induction entries with
  | nil => intro acc _ _; simp
  | cons e rest ih =>
      intro acc hkeys hfresh
      rw [List.foldl_cons,
        insertOrAssignName_of_not_mem acc e.1 e.2
          (fun a ha => hfresh e (List.mem_cons_self _ _) a ha)]
      rw [ih (acc ++ [(e.1, e.2)]) (List.Pairwise.sublist (List.sublist_cons_self _ _) hkeys)
        ?_]
      · simp
      · intro x hx a ha
        rcases List.mem_append.mp ha with h | h
        · exact hfresh x (List.mem_cons_of_mem _ hx) a h
        · have : a = (e.1, e.2) := by simpa using h
          subst this
          exact (List.pairwise_cons.mp hkeys).1 x hx

/-- C2 (amended): serializing the preset name→index maps and next-index
counters with `WriteRecordDataForPresetNameIndexMapV0` and deserializing
the produced bytes with `ReadRecordDataForPresetNameIndexMapV0` into empty
maps reconstructs, for each category, an identical name→index map and an
identical next-index counter — including names split across buffer
flush/refill boundaries — provided every preset name is nonempty (a
zero-length name is indistinguishable from the wire terminator) and the
name lengths, indexes and counters fit in `uint32`. -/
theorem presetNameIndexMap_roundtrip (pc : PresetContainer) (stream : List Nat)
    (hfemKeys : pc.femalePresetIndexByName.Pairwise (fun a b => a.1 ≠ b.1))
    (hmalKeys : pc.malePresetIndexByName.Pairwise (fun a b => a.1 ≠ b.1))
    (hfem : ∀ e ∈ pc.femalePresetIndexByName,
      e.1 ≠ [] ∧ e.1.length < 4294967296 ∧ e.2 < 4294967296)
    (hmal : ∀ e ∈ pc.malePresetIndexByName,
      e.1 ≠ [] ∧ e.1.length < 4294967296 ∧ e.2 < 4294967296)
    (hfn : pc.nextFemalePresetIndex < 4294967296)
    (hmn : pc.nextMalePresetIndex < 4294967296)
    (hm : matchesBytes (WriteRecordDataForPresetNameIndexMapV0 pc) stream = true) :
    ReadRecordDataForPresetNameIndexMapV0 stream ⟨[], [], 0, 0⟩ = (pc, true) := by
  rw [writePresetNameIndexMap_template] at hm
  obtain ⟨b1, b2, hbs, hm1, hm2⟩ := matchesBytes_append_split _ _ _ hm
  subst hbs
  have hlen1 := matchesBytes_length _ _ hm1
  have hlen2 := matchesBytes_length _ _ hm2
  have hinv0 : RInv ⟨[], 0, 0, b1 ++ b2⟩ := by
    refine ⟨rfl, rfl, ?_⟩
    show (b1 ++ b2).length % 4 = 0
    have t1 := catTemplate_length_mod pc.nextFemalePresetIndex pc.femalePresetIndexByName
    have t2 := catTemplate_length_mod pc.nextMalePresetIndex pc.malePresetIndexByName
    simp only [List.length_append]
    omega
  obtain ⟨st1, hcat1, hinv1, ho1, hs1⟩ := readCategoryV0_spec ⟨[], 0, 0, b1 ++ b2⟩ [] 0
    pc.nextFemalePresetIndex pc.femalePresetIndexByName b1 b2 hinv0 rfl hfn hfem hm1 rfl
  obtain ⟨st2, hcat2, hinv2, ho2, hs2⟩ := readCategoryV0_spec st1 [] 0
    pc.nextMalePresetIndex pc.malePresetIndexByName b2 [] hinv1 ho1 hmn hmal hm2
    (by rw [hs1, List.append_nil])
  have hfold1 : pc.femalePresetIndexByName.foldl
      (fun m e => insertOrAssignName m e.1 e.2) [] = pc.femalePresetIndexByName := by
    rw [foldl_insertOrAssignName_fresh _ _ hfemKeys (by intro _ _ a ha; cases ha)]
    rfl
  have hfold2 : pc.malePresetIndexByName.foldl
      (fun m e => insertOrAssignName m e.1 e.2) [] = pc.malePresetIndexByName := by
    rw [foldl_insertOrAssignName_fresh _ _ hmalKeys (by intro _ _ a ha; cases ha)]
    rfl
  rw [hfold1] at hcat1
  rw [hfold2] at hcat2
  unfold ReadRecordDataForPresetNameIndexMapV0
  simp only [hcat1, if_true, hcat2]

/-- Witness for C2 at the container `{"A" ↦ 0}` female (counter 1) and
`{"BC" ↦ 1}` male (counter 2), with the padding bytes instantiated to 0. -/
theorem presetNameIndexMap_roundtrip_witness :
    ((PresetContainer.mk [([65], 0)] [([66, 67], 1)] 1 2).femalePresetIndexByName.Pairwise
        (fun a b => a.1 ≠ b.1) ∧
      (∀ e ∈ (PresetContainer.mk [([65], 0)] [([66, 67], 1)] 1 2).femalePresetIndexByName,
        e.1 ≠ [] ∧ e.1.length < 4294967296 ∧ e.2 < 4294967296)) ∧
    ReadRecordDataForPresetNameIndexMapV0
        ((WriteRecordDataForPresetNameIndexMapV0
          (PresetContainer.mk [([65], 0)] [([66, 67], 1)] 1 2)).map (fun o => o.getD 0))
        ⟨[], [], 0, 0⟩ =
      (PresetContainer.mk [([65], 0)] [([66, 67], 1)] 1 2, true) :=
  ⟨⟨List.pairwise_singleton _ _, by decide⟩,
    presetNameIndexMap_roundtrip (PresetContainer.mk [([65], 0)] [([66, 67], 1)] 1 2) _
      (List.pairwise_singleton _ _) (List.pairwise_singleton _ _) (by decide) (by decide)
      (by decide) (by decide) (matchesBytes_getD _)⟩

/-- Counterexample to C2 as stated: for the container whose female map
assigns index 5 to the empty name (counter 1, empty male map, counter 0),
the writer emits the empty name's zero length, which the reader takes for
the female category's terminator; reading the written bytes back yields an
empty female map and a male counter of 5 instead of the original content. -/
theorem presetNameIndexMap_roundtrip_cex :
    matchesBytes (WriteRecordDataForPresetNameIndexMapV0 (PresetContainer.mk [([], 5)] [] 1 0))
        [1, 0, 0, 0, 0, 0, 0, 0, 5, 0, 0, 0, 0, 0, 0, 0, 0, 0, 0, 0, 0, 0, 0, 0] = true ∧
    ReadRecordDataForPresetNameIndexMapV0
        [1, 0, 0, 0, 0, 0, 0, 0, 5, 0, 0, 0, 0, 0, 0, 0, 0, 0, 0, 0, 0, 0, 0, 0]
        ⟨[], [], 0, 0⟩ ≠
      (PresetContainer.mk [([], 5)] [] 1 0, true) := by
  decide

/-! ### SaveFileState::LoadState (SaveFileState.cpp, lines 30-93)

The cosave is a sequence of typed, versioned records.  `logger` calls are
modelled as a returned list of `LogEvent`s; the loop state carries the two
tables being loaded plus the two per-kind record counters. -/

def ActorRegistryTypeID : Nat := 0xa0B0D9ea

def PresetNameIndexMapTypeID : Nat := 0xa0B0D9e0

structure CosaveRecord where
  type : Nat
  version : Nat
  payload : List Nat

inductive LogEvent where
  | criticalFailedToLoadActorRegistry : LogEvent
  | unknownActorRegistryVersion : Nat → LogEvent
  | criticalFailedToLoadPresetNameIndexMap : LogEvent
  | unknownPresetNameIndexMapVersion : Nat → LogEvent
  | unknownRecordType : Nat → LogEvent
  | multiplePresetNameIndexMapRecords : LogEvent
deriving DecidableEq

structure LoadCore where
  registry : List (Nat × Nat)
  presetContainer : PresetContainer
  actorRegistryCount : Nat
  presetNameMapCount : Nat
deriving DecidableEq

/-- One iteration of the `GetNextRecordInfo` loop: dispatch on record type
and version; apply only the first record of each kind; log failures and
unknowns. -/
def LoadStateStep (s : LoadCore) (rec : CosaveRecord) : LoadCore × List LogEvent :=
  if rec.type = ActorRegistryTypeID then
    if rec.version = 0 then
      if s.actorRegistryCount + 1 = 1 then
        match ReadRecordDataForActorRegistryV0 rec.payload s.registry with
        | (reg', ok) =>
            ({ s with registry := reg', actorRegistryCount := s.actorRegistryCount + 1 },
              if ok then [] else [.criticalFailedToLoadActorRegistry])
      else ({ s with actorRegistryCount := s.actorRegistryCount + 1 }, [])
    else (s, [.unknownActorRegistryVersion rec.version])
  else if rec.type = PresetNameIndexMapTypeID then
    if rec.version = 0 then
      if s.presetNameMapCount + 1 = 1 then
        match ReadRecordDataForPresetNameIndexMapV0 rec.payload s.presetContainer with
        | (pc', ok) =>
            ({ s with presetContainer := pc', presetNameMapCount := s.presetNameMapCount + 1 },
              if ok then [] else [.criticalFailedToLoadPresetNameIndexMap])
      else ({ s with presetNameMapCount := s.presetNameMapCount + 1 }, [])
    else (s, [.unknownPresetNameIndexMapVersion rec.version])
  else (s, [.unknownRecordType rec.type])

def loadLoop : List CosaveRecord → LoadCore → LoadCore × List LogEvent
  | [], s => (s, [])
  | rec :: rest, s =>
      match LoadStateStep s rec with
      | (s1, lg) =>
          match loadLoop rest s1 with
          | (t, lgs) => (t, lg ++ lgs)

/-- `LoadState`: run the record loop from the given tables, then warn once
when more than one preset-name-index-map record was found. -/
def LoadState (records : List CosaveRecord) (reg0 : List (Nat × Nat))
    (pc0 : PresetContainer) : LoadCore × List LogEvent :=
  match loadLoop records ⟨reg0, pc0, 0, 0⟩ with
  | (t, lgs) =>
      (t, lgs ++ if t.presetNameMapCount > 1 then [.multiplePresetNameIndexMapRecords] else [])

def isKnownRecord (r : CosaveRecord) : Bool :=
  (r.type == ActorRegistryTypeID || r.type == PresetNameIndexMapTypeID) && r.version == 0

def isUnknownRecordLog : LogEvent → Bool
  | .unknownActorRegistryVersion _ => true
  | .unknownPresetNameIndexMapVersion _ => true
  | .unknownRecordType _ => true
  | _ => false

/-- `find`-style lookup of the payload of the first record of a given type
with version 0. -/
def firstPayloadOf (t : Nat) : List CosaveRecord → Option (List Nat)
  | [] => none
  | r :: rest => if r.type = t ∧ r.version = 0 then some r.payload else firstPayloadOf t rest


/-- The log event a record that is skipped for its unknown type or
version produces: one error per skipped record. -/
def unknownLogOf (r : CosaveRecord) : LogEvent :=
  if r.type = ActorRegistryTypeID then .unknownActorRegistryVersion r.version
  else if r.type = PresetNameIndexMapTypeID then .unknownPresetNameIndexMapVersion r.version
  else .unknownRecordType r.type

def isPresetMapV0 (r : CosaveRecord) : Bool :=
  r.type == PresetNameIndexMapTypeID && r.version == 0

theorem isUnknownRecordLog_unknownLogOf (r : CosaveRecord) :
    isUnknownRecordLog (unknownLogOf r) = true := by
  unfold unknownLogOf
  split_ifs <;> rfl

theorem typeIDs_ne : ActorRegistryTypeID ≠ PresetNameIndexMapTypeID := by decide

theorem LoadStateStep_actorRegV0_first (s : LoadCore) (r : CosaveRecord)
    (ht : r.type = ActorRegistryTypeID) (hv : r.version = 0)
    (hc : s.actorRegistryCount = 0) :
    LoadStateStep s r =
      (LoadCore.mk (ReadRecordDataForActorRegistryV0 r.payload s.registry).1
          s.presetContainer 1 s.presetNameMapCount,
        if (ReadRecordDataForActorRegistryV0 r.payload s.registry).2 then []
        else [.criticalFailedToLoadActorRegistry]) := by
  unfold LoadStateStep
  rcases hR : ReadRecordDataForActorRegistryV0 r.payload s.registry with ⟨reg1, ok⟩
  rw [if_pos ht, if_pos hv, if_pos (show s.actorRegistryCount + 1 = 1 by omega), hc]

theorem LoadStateStep_presetV0_first (s : LoadCore) (r : CosaveRecord)
    (ht : r.type = PresetNameIndexMapTypeID) (hv : r.version = 0)
    (hc : s.presetNameMapCount = 0) :
    LoadStateStep s r =
      (LoadCore.mk s.registry
          (ReadRecordDataForPresetNameIndexMapV0 r.payload s.presetContainer).1
          s.actorRegistryCount 1,
        if (ReadRecordDataForPresetNameIndexMapV0 r.payload s.presetContainer).2 then []
        else [.criticalFailedToLoadPresetNameIndexMap]) := by
  unfold LoadStateStep
  have hA : ¬ r.type = ActorRegistryTypeID := by
    rw [ht]; exact fun h => typeIDs_ne h.symm
  rcases hR : ReadRecordDataForPresetNameIndexMapV0 r.payload s.presetContainer with ⟨pc1, ok⟩
  rw [if_neg hA, if_pos ht, if_pos hv, if_pos (show s.presetNameMapCount + 1 = 1 by omega),
    hc]

theorem LoadStateStep_actorRegV0_dup (s : LoadCore) (r : CosaveRecord)
    (ht : r.type = ActorRegistryTypeID) (hv : r.version = 0)
    (hc : s.actorRegistryCount ≠ 0) :
    LoadStateStep s r = ({ s with actorRegistryCount := s.actorRegistryCount + 1 }, []) := by
  unfold LoadStateStep
  rw [if_pos ht, if_pos hv, if_neg (show ¬ s.actorRegistryCount + 1 = 1 by omega)]

theorem LoadStateStep_presetV0_dup (s : LoadCore) (r : CosaveRecord)
    (ht : r.type = PresetNameIndexMapTypeID) (hv : r.version = 0)
    (hc : s.presetNameMapCount ≠ 0) :
    LoadStateStep s r = ({ s with presetNameMapCount := s.presetNameMapCount + 1 }, []) := by
  unfold LoadStateStep
  have hA : ¬ r.type = ActorRegistryTypeID := by
    rw [ht]; exact fun h => typeIDs_ne h.symm
  rw [if_neg hA, if_pos ht, if_pos hv, if_neg (show ¬ s.presetNameMapCount + 1 = 1 by omega)]

theorem LoadStateStep_unknown (s : LoadCore) (r : CosaveRecord)
    (h : isKnownRecord r = false) :
    LoadStateStep s r = (s, [unknownLogOf r]) := by
  unfold LoadStateStep unknownLogOf
  by_cases hA : r.type = ActorRegistryTypeID
  · have hv : ¬ r.version = 0 := by simp [isKnownRecord, hA] at h; exact h
    rw [if_pos hA, if_neg hv, if_pos hA]
  · by_cases hP : r.type = PresetNameIndexMapTypeID
    · have hv : ¬ r.version = 0 := by simp [isKnownRecord, hP] at h; exact h
      rw [if_neg hA, if_pos hP, if_neg hv, if_neg hA, if_pos hP]
    · rw [if_neg hA, if_neg hP, if_neg hA, if_neg hP]

theorem LoadStateStep_snd_cases (s : LoadCore) (r : CosaveRecord) :
    (LoadStateStep s r).2 = [] ∨
    (LoadStateStep s r).2 = [.criticalFailedToLoadActorRegistry] ∨
    (LoadStateStep s r).2 = [.criticalFailedToLoadPresetNameIndexMap] ∨
    ((LoadStateStep s r).2 = [unknownLogOf r] ∧ isKnownRecord r = false) := by
  by_cases hA : r.type = ActorRegistryTypeID
  · by_cases hv : r.version = 0
    · by_cases hc : s.actorRegistryCount = 0
      · rw [LoadStateStep_actorRegV0_first s r hA hv hc]
        by_cases hok : (ReadRecordDataForActorRegistryV0 r.payload s.registry).2 = true
        · left; rw [hok]; rfl
        · right; left
          rw [Bool.eq_false_iff.mpr hok]; rfl
      · rw [LoadStateStep_actorRegV0_dup s r hA hv hc]
        left; rfl
    · have h3 : (r.version == 0) = false := beq_eq_false_iff_ne.mpr hv
      have hk : isKnownRecord r = false := by
        unfold isKnownRecord; rw [h3, Bool.and_false]
      rw [LoadStateStep_unknown s r hk]
      exact Or.inr (Or.inr (Or.inr ⟨rfl, hk⟩))
  · by_cases hP : r.type = PresetNameIndexMapTypeID
    · by_cases hv : r.version = 0
      · by_cases hc : s.presetNameMapCount = 0
        · rw [LoadStateStep_presetV0_first s r hP hv hc]
          by_cases hok :
              (ReadRecordDataForPresetNameIndexMapV0 r.payload s.presetContainer).2 = true
          · left; rw [hok]; rfl
          · right; right; left
            rw [Bool.eq_false_iff.mpr hok]; rfl
        · rw [LoadStateStep_presetV0_dup s r hP hv hc]
          left; rfl
      · have h3 : (r.version == 0) = false := beq_eq_false_iff_ne.mpr hv
        have hk : isKnownRecord r = false := by
          unfold isKnownRecord; rw [h3, Bool.and_false]
        rw [LoadStateStep_unknown s r hk]
        exact Or.inr (Or.inr (Or.inr ⟨rfl, hk⟩))
    · have h1 : (r.type == ActorRegistryTypeID) = false := beq_eq_false_iff_ne.mpr hA
      have h2 : (r.type == PresetNameIndexMapTypeID) = false := beq_eq_false_iff_ne.mpr hP
      have hk : isKnownRecord r = false := by
        unfold isKnownRecord; rw [h1, h2]; rfl
      rw [LoadStateStep_unknown s r hk]
      exact Or.inr (Or.inr (Or.inr ⟨rfl, hk⟩))

theorem LoadStateStep_known_no_unknown_logs (s : LoadCore) (r : CosaveRecord)
    (hk : isKnownRecord r = true) :
    (LoadStateStep s r).2.filter isUnknownRecordLog = [] := by
  rcases LoadStateStep_snd_cases s r with h | h | h | ⟨h, hf⟩
  · rw [h]; rfl
  · rw [h]; rfl
  · rw [h]; rfl
  · rw [hf] at hk; exact Bool.noConfusion hk

theorem LoadStateStep_multiple_notin (s : LoadCore) (r : CosaveRecord) :
    LogEvent.multiplePresetNameIndexMapRecords ∉ (LoadStateStep s r).2 := by
  rcases LoadStateStep_snd_cases s r with h | h | h | ⟨h, -⟩ <;> rw [h]
  · simp
  · simp
  · simp
  · intro hmem
    have hEq := List.mem_singleton.mp hmem
    have hu := isUnknownRecordLog_unknownLogOf r
    rw [← hEq] at hu
    exact Bool.noConfusion hu

theorem LoadStateStep_not_actorRegV0 (s : LoadCore) (r : CosaveRecord)
    (h : ¬(r.type = ActorRegistryTypeID ∧ r.version = 0)) :
    (LoadStateStep s r).1.registry = s.registry ∧
    (LoadStateStep s r).1.actorRegistryCount = s.actorRegistryCount := by
  unfold LoadStateStep
  by_cases hA : r.type = ActorRegistryTypeID
  · have hv : ¬ r.version = 0 := fun hv => h ⟨hA, hv⟩
    rw [if_pos hA, if_neg hv]
    exact ⟨rfl, rfl⟩
  · rw [if_neg hA]
    by_cases hP : r.type = PresetNameIndexMapTypeID
    · rw [if_pos hP]
      by_cases hv : r.version = 0
      · rw [if_pos hv]
        by_cases hc : s.presetNameMapCount + 1 = 1
        · rw [if_pos hc]
          rcases hR : ReadRecordDataForPresetNameIndexMapV0 r.payload s.presetContainer
            with ⟨pc1, ok⟩
          exact ⟨rfl, rfl⟩
        · rw [if_neg hc]
          exact ⟨rfl, rfl⟩
      · rw [if_neg hv]
        exact ⟨rfl, rfl⟩
    · rw [if_neg hP]
      exact ⟨rfl, rfl⟩

theorem LoadStateStep_not_presetV0 (s : LoadCore) (r : CosaveRecord)
    (h : ¬(r.type = PresetNameIndexMapTypeID ∧ r.version = 0)) :
    (LoadStateStep s r).1.presetContainer = s.presetContainer ∧
    (LoadStateStep s r).1.presetNameMapCount = s.presetNameMapCount := by
  unfold LoadStateStep
  by_cases hA : r.type = ActorRegistryTypeID
  · rw [if_pos hA]
    by_cases hv : r.version = 0
    · rw [if_pos hv]
      by_cases hc : s.actorRegistryCount + 1 = 1
      · rw [if_pos hc]
        rcases hR : ReadRecordDataForActorRegistryV0 r.payload s.registry with ⟨reg1, ok⟩
        exact ⟨rfl, rfl⟩
      · rw [if_neg hc]
        exact ⟨rfl, rfl⟩
    · rw [if_neg hv]
      exact ⟨rfl, rfl⟩
  · rw [if_neg hA]
    by_cases hP : r.type = PresetNameIndexMapTypeID
    · have hv : ¬ r.version = 0 := fun hv => h ⟨hP, hv⟩
      rw [if_pos hP, if_neg hv]
      exact ⟨rfl, rfl⟩
    · rw [if_neg hP]
      exact ⟨rfl, rfl⟩

theorem LoadStateStep_presetCount (s : LoadCore) (r : CosaveRecord) :
    (LoadStateStep s r).1.presetNameMapCount =
      s.presetNameMapCount + (if isPresetMapV0 r then 1 else 0) := by
  by_cases hp : isPresetMapV0 r = true
  · obtain ⟨ht, hv⟩ : r.type = PresetNameIndexMapTypeID ∧ r.version = 0 := by
      simpa [isPresetMapV0] using hp
    rw [if_pos hp]
    by_cases hc : s.presetNameMapCount = 0
    · rw [LoadStateStep_presetV0_first s r ht hv hc, hc]
    · rw [LoadStateStep_presetV0_dup s r ht hv hc]
  · have hnp : ¬(r.type = PresetNameIndexMapTypeID ∧ r.version = 0) := by
      intro hx
      exact hp (by simp [isPresetMapV0, hx.1, hx.2])
    rw [if_neg hp, (LoadStateStep_not_presetV0 s r hnp).2]
    rfl

theorem loadLoop_cons (r : CosaveRecord) (rest : List CosaveRecord) (s : LoadCore) :
    loadLoop (r :: rest) s =
      ((loadLoop rest (LoadStateStep s r).1).1,
        (LoadStateStep s r).2 ++ (loadLoop rest (LoadStateStep s r).1).2) := rfl

theorem firstPayloadOf_cons (t : Nat) (r : CosaveRecord) (rest : List CosaveRecord) :
    firstPayloadOf t (r :: rest) =
      if r.type = t ∧ r.version = 0 then some r.payload else firstPayloadOf t rest := rfl

theorem loadLoop_registry_frozen (records : List CosaveRecord) :
    ∀ s : LoadCore, s.actorRegistryCount ≠ 0 →
      (loadLoop records s).1.registry = s.registry := by
  induction records with
  | nil => intro s _; rfl
  | cons r rest ih =>
      intro s h
      rw [loadLoop_cons]
      by_cases hr : r.type = ActorRegistryTypeID ∧ r.version = 0
      · rw [LoadStateStep_actorRegV0_dup s r hr.1 hr.2 h]
        exact ih _ (Nat.succ_ne_zero _)
      · have hpre := LoadStateStep_not_actorRegV0 s r hr
        rw [ih _ (by rw [hpre.2]; exact h)]
        exact hpre.1

theorem loadLoop_presetContainer_frozen (records : List CosaveRecord) :
    ∀ s : LoadCore, s.presetNameMapCount ≠ 0 →
      (loadLoop records s).1.presetContainer = s.presetContainer := by
  induction records with
  | nil => intro s _; rfl
  | cons r rest ih =>
      intro s h
      rw [loadLoop_cons]
      by_cases hr : r.type = PresetNameIndexMapTypeID ∧ r.version = 0
      · rw [LoadStateStep_presetV0_dup s r hr.1 hr.2 h]
        exact ih _ (Nat.succ_ne_zero _)
      · have hpre := LoadStateStep_not_presetV0 s r hr
        rw [ih _ (by rw [hpre.2]; exact h)]
        exact hpre.1

theorem loadLoop_registry (records : List CosaveRecord) :
    ∀ s : LoadCore, s.actorRegistryCount = 0 →
      (loadLoop records s).1.registry =
        (match firstPayloadOf ActorRegistryTypeID records with
         | none => s.registry
         | some p => (ReadRecordDataForActorRegistryV0 p s.registry).1) := by
  induction records with
  | nil => intro s _; rfl
  | cons r rest ih =>
      intro s h
      rw [loadLoop_cons]
      by_cases hr : r.type = ActorRegistryTypeID ∧ r.version = 0
      · rw [show firstPayloadOf ActorRegistryTypeID (r :: rest) = some r.payload from by
          unfold firstPayloadOf; rw [if_pos hr]]
        rw [LoadStateStep_actorRegV0_first s r hr.1 hr.2 h]
        exact loadLoop_registry_frozen rest _ (Nat.one_ne_zero)
      · have hpre := LoadStateStep_not_actorRegV0 s r hr
        have hcnt : ((LoadStateStep s r).1).actorRegistryCount = 0 := by
          rw [hpre.2]; exact h
        rw [ih ((LoadStateStep s r).1) hcnt, hpre.1]
        rw [firstPayloadOf_cons, if_neg hr]

theorem loadLoop_presetContainer (records : List CosaveRecord) :
    ∀ s : LoadCore, s.presetNameMapCount = 0 →
      (loadLoop records s).1.presetContainer =
        (match firstPayloadOf PresetNameIndexMapTypeID records with
         | none => s.presetContainer
         | some p => (ReadRecordDataForPresetNameIndexMapV0 p s.presetContainer).1) := by
  induction records with
  | nil => intro s _; rfl
  | cons r rest ih =>
      intro s h
      rw [loadLoop_cons]
      by_cases hr : r.type = PresetNameIndexMapTypeID ∧ r.version = 0
      · rw [show firstPayloadOf PresetNameIndexMapTypeID (r :: rest) = some r.payload from by
          unfold firstPayloadOf; rw [if_pos hr]]
        rw [LoadStateStep_presetV0_first s r hr.1 hr.2 h]
        exact loadLoop_presetContainer_frozen rest _ (Nat.one_ne_zero)
      · have hpre := LoadStateStep_not_presetV0 s r hr
        have hcnt : ((LoadStateStep s r).1).presetNameMapCount = 0 := by
          rw [hpre.2]; exact h
        rw [ih ((LoadStateStep s r).1) hcnt, hpre.1]
        rw [firstPayloadOf_cons, if_neg hr]

theorem loadLoop_presetCount (records : List CosaveRecord) :
    ∀ s : LoadCore, (loadLoop records s).1.presetNameMapCount =
      s.presetNameMapCount + (records.filter isPresetMapV0).length := by
  induction records with
  | nil => intro s; rfl
  | cons r rest ih =>
      intro s
      rw [loadLoop_cons, ih, LoadStateStep_presetCount, List.filter_cons]
      by_cases hp : isPresetMapV0 r = true
      · rw [if_pos hp, if_pos hp, List.length_cons]
        omega
      · rw [if_neg hp, if_neg hp]
        omega

theorem loadLoop_no_multiple (records : List CosaveRecord) :
    ∀ s : LoadCore,
      LogEvent.multiplePresetNameIndexMapRecords ∉ (loadLoop records s).2 := by
  induction records with
  | nil => intro s h; exact List.not_mem_nil _ h
  | cons r rest ih =>
      intro s hmem
      rw [loadLoop_cons] at hmem
      rcases List.mem_append.mp hmem with h1 | h2
      · exact LoadStateStep_multiple_notin s r h1
      · exact ih _ h2

theorem loadLoop_preset_critical (records : List CosaveRecord) :
    ∀ (s : LoadCore) (p : List Nat), s.presetNameMapCount = 0 →
      firstPayloadOf PresetNameIndexMapTypeID records = some p →
      (ReadRecordDataForPresetNameIndexMapV0 p s.presetContainer).2 = false →
      LogEvent.criticalFailedToLoadPresetNameIndexMap ∈ (loadLoop records s).2 := by
  induction records with
  | nil =>
      intro s p _ hf _
      exact Option.noConfusion (show (none : Option (List Nat)) = some p from hf)
  | cons r rest ih =>
      intro s p hc hf hfail
      rw [loadLoop_cons]
      by_cases hr : r.type = PresetNameIndexMapTypeID ∧ r.version = 0
      · have hp : p = r.payload := by
          rw [firstPayloadOf_cons, if_pos hr] at hf
          exact (Option.some.inj hf).symm
        subst hp
        rw [LoadStateStep_presetV0_first s r hr.1 hr.2 hc, hfail]
        exact List.mem_append_left _ (List.mem_singleton.mpr rfl)
      · have hpre := LoadStateStep_not_presetV0 s r hr
        have hf' : firstPayloadOf PresetNameIndexMapTypeID rest = some p := by
          rw [firstPayloadOf_cons, if_neg hr] at hf
          exact hf
        exact List.mem_append_right _
          (ih _ p (by rw [hpre.2]; exact hc) hf' (by rw [hpre.1]; exact hfail))

theorem loadLoop_actorReg_critical (records : List CosaveRecord) :
    ∀ (s : LoadCore) (p : List Nat), s.actorRegistryCount = 0 →
      firstPayloadOf ActorRegistryTypeID records = some p →
      (ReadRecordDataForActorRegistryV0 p s.registry).2 = false →
      LogEvent.criticalFailedToLoadActorRegistry ∈ (loadLoop records s).2 := by
  induction records with
  | nil =>
      intro s p _ hf _
      exact Option.noConfusion (show (none : Option (List Nat)) = some p from hf)
  | cons r rest ih =>
      intro s p hc hf hfail
      rw [loadLoop_cons]
      by_cases hr : r.type = ActorRegistryTypeID ∧ r.version = 0
      · have hp : p = r.payload := by
          rw [firstPayloadOf_cons, if_pos hr] at hf
          exact (Option.some.inj hf).symm
        subst hp
        rw [LoadStateStep_actorRegV0_first s r hr.1 hr.2 hc, hfail]
        exact List.mem_append_left _ (List.mem_singleton.mpr rfl)
      · have hpre := LoadStateStep_not_actorRegV0 s r hr
        have hf' : firstPayloadOf ActorRegistryTypeID rest = some p := by
          rw [firstPayloadOf_cons, if_neg hr] at hf
          exact hf
        exact List.mem_append_right _
          (ih _ p (by rw [hpre.2]; exact hc) hf' (by rw [hpre.1]; exact hfail))

theorem loadLoop_skip_unknown (records : List CosaveRecord) :
    ∀ s : LoadCore,
      (loadLoop records s).1 = (loadLoop (records.filter isKnownRecord) s).1 ∧
      ((loadLoop records s).2.filter isUnknownRecordLog).length =
        (records.filter (fun x => !isKnownRecord x)).length := by
  induction records with
  | nil => intro s; exact ⟨rfl, rfl⟩
  | cons r rest ih =>
      intro s
      by_cases hk : isKnownRecord r = true
      · constructor
        · rw [loadLoop_cons]
          rw [show (r :: rest).filter isKnownRecord = r :: rest.filter isKnownRecord from by
            rw [List.filter_cons, if_pos hk]]
          rw [loadLoop_cons]
          exact (ih ((LoadStateStep s r).1)).1
        · rw [loadLoop_cons]
          show (((LoadStateStep s r).2 ++
            (loadLoop rest (LoadStateStep s r).1).2).filter isUnknownRecordLog).length = _
          rw [List.filter_append, LoadStateStep_known_no_unknown_logs s r hk,
            List.nil_append]
          rw [show (r :: rest).filter (fun x => !isKnownRecord x) =
              rest.filter (fun x => !isKnownRecord x) from by
            rw [List.filter_cons, if_neg (by rw [hk]; exact Bool.noConfusion)]]
          exact (ih _).2
      · have hkf : isKnownRecord r = false := Bool.eq_false_iff.mpr hk
        have hstep := LoadStateStep_unknown s r hkf
        constructor
        · rw [loadLoop_cons, hstep]
          rw [show (r :: rest).filter isKnownRecord = rest.filter isKnownRecord from by
            rw [List.filter_cons, if_neg (by rw [hkf]; exact Bool.noConfusion)]]
          exact (ih s).1
        · rw [loadLoop_cons, hstep]
          show (([unknownLogOf r] ++
            (loadLoop rest s).2).filter isUnknownRecordLog).length = _
          rw [List.filter_append]
          rw [show [unknownLogOf r].filter isUnknownRecordLog = [unknownLogOf r] from by
            rw [List.filter_cons, if_pos (isUnknownRecordLog_unknownLogOf r)]; rfl]
          rw [show (r :: rest).filter (fun x => !isKnownRecord x) =
              r :: rest.filter (fun x => !isKnownRecord x) from by
            rw [List.filter_cons, if_pos (by rw [hkf]; rfl)]]
          simp only [List.length_append, List.length_cons, List.length_nil, (ih s).2]
          omega

theorem LoadState_eq (records : List CosaveRecord) (reg0 : List (Nat × Nat))
    (pc0 : PresetContainer) :
    LoadState records reg0 pc0 =
      ((loadLoop records ⟨reg0, pc0, 0, 0⟩).1,
        (loadLoop records ⟨reg0, pc0, 0, 0⟩).2 ++
          if (loadLoop records ⟨reg0, pc0, 0, 0⟩).1.presetNameMapCount > 1
          then [LogEvent.multiplePresetNameIndexMapRecords] else []) := rfl

/-- C6: during a load, a cosave record of unknown type, or of a known type
with an unknown version, is logged and skipped without aborting the load:
the tables `LoadState` produces equal those produced from the known
records alone, with exactly one unknown-record error logged per skipped
record; and in the concrete scenario of a preset-name-index-map record of
unknown version 1 alongside a valid version-0 actor-registry record, the
actor-registry entry still loads and the unknown version is logged. -/
theorem loadState_skips_unknown_records :
    (∀ (records : List CosaveRecord) (reg0 : List (Nat × Nat)) (pc0 : PresetContainer),
      (LoadState records reg0 pc0).1 =
        (LoadState (records.filter isKnownRecord) reg0 pc0).1 ∧
      ((LoadState records reg0 pc0).2.filter isUnknownRecordLog).length =
        (records.filter (fun x => !isKnownRecord x)).length) ∧
    (LoadState [⟨PresetNameIndexMapTypeID, 1, []⟩,
        ⟨ActorRegistryTypeID, 0, [52, 18, 0, 0, 0, 16, 0, 0]⟩] [] ⟨[], [], 0, 0⟩).1.registry =
      [(4660, 4096)] ∧
    LogEvent.unknownPresetNameIndexMapVersion 1 ∈
      (LoadState [⟨PresetNameIndexMapTypeID, 1, []⟩,
        ⟨ActorRegistryTypeID, 0, [52, 18, 0, 0, 0, 16, 0, 0]⟩] [] ⟨[], [], 0, 0⟩).2 := by
  refine ⟨fun records reg0 pc0 => ⟨?_, ?_⟩, by decide, by decide⟩
  · rw [LoadState_eq, LoadState_eq]
    exact (loadLoop_skip_unknown records ⟨reg0, pc0, 0, 0⟩).1
  · rw [LoadState_eq]
    show (((loadLoop records ⟨reg0, pc0, 0, 0⟩).2 ++ _).filter isUnknownRecordLog).length = _
    rw [List.filter_append]
    rw [show ((if (loadLoop records ⟨reg0, pc0, 0, 0⟩).1.presetNameMapCount > 1
        then [LogEvent.multiplePresetNameIndexMapRecords] else []).filter
          isUnknownRecordLog) = [] from by split_ifs <;> rfl]
    rw [List.append_nil]
    exact (loadLoop_skip_unknown records ⟨reg0, pc0, 0, 0⟩).2

/-- C7 (amended): when a save contains more than one record of a singular
kind, `LoadState` applies only the first record of each kind; a single
warning is emitted exactly when more than one version-0
preset-name-index-map record is present, and duplicate actor-registry
records produce no warning at all. -/
theorem loadState_duplicate_records (records : List CosaveRecord)
    (reg0 : List (Nat × Nat)) (pc0 : PresetContainer) :
    ((LoadState records reg0 pc0).1.registry =
      (match firstPayloadOf ActorRegistryTypeID records with
       | none => reg0
       | some p => (ReadRecordDataForActorRegistryV0 p reg0).1)) ∧
    ((LoadState records reg0 pc0).1.presetContainer =
      (match firstPayloadOf PresetNameIndexMapTypeID records with
       | none => pc0
       | some p => (ReadRecordDataForPresetNameIndexMapV0 p pc0).1)) ∧
    ((LoadState records reg0 pc0).2.count LogEvent.multiplePresetNameIndexMapRecords =
      if 1 < (records.filter isPresetMapV0).length then 1 else 0) := by
  refine ⟨?_, ?_, ?_⟩
  · rw [LoadState_eq]
    exact loadLoop_registry records ⟨reg0, pc0, 0, 0⟩ rfl
  · rw [LoadState_eq]
    exact loadLoop_presetContainer records ⟨reg0, pc0, 0, 0⟩ rfl
  · rw [LoadState_eq]
    show ((loadLoop records ⟨reg0, pc0, 0, 0⟩).2 ++ _).count _ = _
    rw [List.count_append]
    rw [List.count_eq_zero.mpr (loadLoop_no_multiple records ⟨reg0, pc0, 0, 0⟩)]
    rw [Nat.zero_add]
    have hcnt : (loadLoop records ⟨reg0, pc0, 0, 0⟩).1.presetNameMapCount =
        (records.filter isPresetMapV0).length := by
      rw [loadLoop_presetCount records ⟨reg0, pc0, 0, 0⟩]
      exact Nat.zero_add _
    by_cases h1 : 1 < (records.filter isPresetMapV0).length
    · rw [if_pos (by rw [hcnt]; exact h1), if_pos h1]
      simp
    · rw [if_neg (by rw [hcnt]; exact h1), if_neg h1]
      rfl

/-- Counterexample to C7 as stated: a save holding two version-0
actor-registry records, each with one valid entry, produces no log events
at all — the duplicate beyond the first is skipped silently instead of
producing a warning. -/
theorem loadState_duplicate_records_cex :
    (LoadState [⟨ActorRegistryTypeID, 0, [52, 18, 0, 0, 0, 16, 0, 0]⟩,
        ⟨ActorRegistryTypeID, 0, [52, 18, 0, 0, 0, 16, 0, 0]⟩] [] ⟨[], [], 0, 0⟩).2 = [] := by
  decide

/-- C8 (amended): when reading the first version-0 record of either kind
fails (misalignment or truncation), the failure is logged as critical and
that record's load is abandoned with the partially decoded table retained
as decoded so far (not reset to empty/default), while the first record of
the other kind, if any, still attempts to load. -/
theorem loadState_read_failure (records : List CosaveRecord)
    (reg0 : List (Nat × Nat)) (pc0 : PresetContainer) :
    (∀ p : List Nat, firstPayloadOf ActorRegistryTypeID records = some p →
      (ReadRecordDataForActorRegistryV0 p reg0).2 = false →
      LogEvent.criticalFailedToLoadActorRegistry ∈ (LoadState records reg0 pc0).2 ∧
      (LoadState records reg0 pc0).1.registry =
        (ReadRecordDataForActorRegistryV0 p reg0).1 ∧
      (LoadState records reg0 pc0).1.presetContainer =
        (match firstPayloadOf PresetNameIndexMapTypeID records with
         | none => pc0
         | some q => (ReadRecordDataForPresetNameIndexMapV0 q pc0).1)) ∧
    (∀ p : List Nat, firstPayloadOf PresetNameIndexMapTypeID records = some p →
      (ReadRecordDataForPresetNameIndexMapV0 p pc0).2 = false →
      LogEvent.criticalFailedToLoadPresetNameIndexMap ∈ (LoadState records reg0 pc0).2 ∧
      (LoadState records reg0 pc0).1.presetContainer =
        (ReadRecordDataForPresetNameIndexMapV0 p pc0).1 ∧
      (LoadState records reg0 pc0).1.registry =
        (match firstPayloadOf ActorRegistryTypeID records with
         | none => reg0
         | some q => (ReadRecordDataForActorRegistryV0 q reg0).1)) := by
  constructor
  · intro p hp hfail
    refine ⟨?_, ?_, ?_⟩
    · rw [LoadState_eq]
      exact List.mem_append_left _
        (loadLoop_actorReg_critical records ⟨reg0, pc0, 0, 0⟩ p rfl hp hfail)
    · rw [LoadState_eq]
      rw [loadLoop_registry records ⟨reg0, pc0, 0, 0⟩ rfl, hp]
    · rw [LoadState_eq]
      exact loadLoop_presetContainer records ⟨reg0, pc0, 0, 0⟩ rfl
  · intro p hp hfail
    refine ⟨?_, ?_, ?_⟩
    · rw [LoadState_eq]
      exact List.mem_append_left _
        (loadLoop_preset_critical records ⟨reg0, pc0, 0, 0⟩ p rfl hp hfail)
    · rw [LoadState_eq]
      rw [loadLoop_presetContainer records ⟨reg0, pc0, 0, 0⟩ rfl, hp]
    · rw [LoadState_eq]
      exact loadLoop_registry records ⟨reg0, pc0, 0, 0⟩ rfl

/-- Closed instance of the amended C8 theorem: one save holding a
misaligned actor-registry record (4-byte payload, not a multiple of 8)
and a truncated preset-name-index-map record; both failures are logged
as critical, both tables keep what was decoded before the failure, and
each record of the other kind was still attempted. -/
theorem loadState_read_failure_witness :
    (firstPayloadOf ActorRegistryTypeID
        [⟨ActorRegistryTypeID, 0, [1, 0, 0, 0]⟩,
         ⟨PresetNameIndexMapTypeID, 0, [1, 0, 0, 0, 1, 0, 0, 0, 0, 0, 0, 0, 65, 0, 0, 0]⟩] =
      some [1, 0, 0, 0] ∧
     (ReadRecordDataForActorRegistryV0 [1, 0, 0, 0] []).2 = false ∧
     (LogEvent.criticalFailedToLoadActorRegistry ∈
        (LoadState [⟨ActorRegistryTypeID, 0, [1, 0, 0, 0]⟩,
            ⟨PresetNameIndexMapTypeID, 0, [1, 0, 0, 0, 1, 0, 0, 0, 0, 0, 0, 0, 65, 0, 0, 0]⟩]
          [] ⟨[], [], 0, 0⟩).2 ∧
      (LoadState [⟨ActorRegistryTypeID, 0, [1, 0, 0, 0]⟩,
            ⟨PresetNameIndexMapTypeID, 0, [1, 0, 0, 0, 1, 0, 0, 0, 0, 0, 0, 0, 65, 0, 0, 0]⟩]
          [] ⟨[], [], 0, 0⟩).1.registry =
        (ReadRecordDataForActorRegistryV0 [1, 0, 0, 0] []).1 ∧
      (LoadState [⟨ActorRegistryTypeID, 0, [1, 0, 0, 0]⟩,
            ⟨PresetNameIndexMapTypeID, 0, [1, 0, 0, 0, 1, 0, 0, 0, 0, 0, 0, 0, 65, 0, 0, 0]⟩]
          [] ⟨[], [], 0, 0⟩).1.presetContainer =
        (match firstPayloadOf PresetNameIndexMapTypeID
            [⟨ActorRegistryTypeID, 0, [1, 0, 0, 0]⟩,
             ⟨PresetNameIndexMapTypeID, 0,
               [1, 0, 0, 0, 1, 0, 0, 0, 0, 0, 0, 0, 65, 0, 0, 0]⟩] with
         | none => (⟨[], [], 0, 0⟩ : PresetContainer)
         | some q => (ReadRecordDataForPresetNameIndexMapV0 q ⟨[], [], 0, 0⟩).1))) ∧
    (firstPayloadOf PresetNameIndexMapTypeID
        [⟨ActorRegistryTypeID, 0, [1, 0, 0, 0]⟩,
         ⟨PresetNameIndexMapTypeID, 0, [1, 0, 0, 0, 1, 0, 0, 0, 0, 0, 0, 0, 65, 0, 0, 0]⟩] =
      some [1, 0, 0, 0, 1, 0, 0, 0, 0, 0, 0, 0, 65, 0, 0, 0] ∧
     (ReadRecordDataForPresetNameIndexMapV0
        [1, 0, 0, 0, 1, 0, 0, 0, 0, 0, 0, 0, 65, 0, 0, 0] ⟨[], [], 0, 0⟩).2 = false ∧
     (LogEvent.criticalFailedToLoadPresetNameIndexMap ∈
        (LoadState [⟨ActorRegistryTypeID, 0, [1, 0, 0, 0]⟩,
            ⟨PresetNameIndexMapTypeID, 0, [1, 0, 0, 0, 1, 0, 0, 0, 0, 0, 0, 0, 65, 0, 0, 0]⟩]
          [] ⟨[], [], 0, 0⟩).2 ∧
      (LoadState [⟨ActorRegistryTypeID, 0, [1, 0, 0, 0]⟩,
            ⟨PresetNameIndexMapTypeID, 0, [1, 0, 0, 0, 1, 0, 0, 0, 0, 0, 0, 0, 65, 0, 0, 0]⟩]
          [] ⟨[], [], 0, 0⟩).1.presetContainer =
        (ReadRecordDataForPresetNameIndexMapV0
          [1, 0, 0, 0, 1, 0, 0, 0, 0, 0, 0, 0, 65, 0, 0, 0] ⟨[], [], 0, 0⟩).1 ∧
      (LoadState [⟨ActorRegistryTypeID, 0, [1, 0, 0, 0]⟩,
            ⟨PresetNameIndexMapTypeID, 0, [1, 0, 0, 0, 1, 0, 0, 0, 0, 0, 0, 0, 65, 0, 0, 0]⟩]
          [] ⟨[], [], 0, 0⟩).1.registry =
        (match firstPayloadOf ActorRegistryTypeID
            [⟨ActorRegistryTypeID, 0, [1, 0, 0, 0]⟩,
             ⟨PresetNameIndexMapTypeID, 0,
               [1, 0, 0, 0, 1, 0, 0, 0, 0, 0, 0, 0, 65, 0, 0, 0]⟩] with
         | none => ([] : List (Nat × Nat))
         | some q => (ReadRecordDataForActorRegistryV0 q []).1))) :=
  ⟨⟨by decide, by decide,
    (loadState_read_failure
        [⟨ActorRegistryTypeID, 0, [1, 0, 0, 0]⟩,
         ⟨PresetNameIndexMapTypeID, 0, [1, 0, 0, 0, 1, 0, 0, 0, 0, 0, 0, 0, 65, 0, 0, 0]⟩]
        [] ⟨[], [], 0, 0⟩).1 [1, 0, 0, 0] (by decide) (by decide)⟩,
   ⟨by decide, by decide,
    (loadState_read_failure
        [⟨ActorRegistryTypeID, 0, [1, 0, 0, 0]⟩,
         ⟨PresetNameIndexMapTypeID, 0, [1, 0, 0, 0, 1, 0, 0, 0, 0, 0, 0, 0, 65, 0, 0, 0]⟩]
        [] ⟨[], [], 0, 0⟩).2 [1, 0, 0, 0, 1, 0, 0, 0, 0, 0, 0, 0, 65, 0, 0, 0]
      (by decide) (by decide)⟩⟩

/-- Counterexample to C8 as stated: reading the truncated
preset-name-index-map payload fails, yet the female table afterwards holds
the partially decoded entry (name `[65]` assigned index 0) and an advanced
counter — it is not left empty/default. -/
theorem loadState_preset_read_failure_cex :
    (ReadRecordDataForPresetNameIndexMapV0
        [1, 0, 0, 0, 1, 0, 0, 0, 0, 0, 0, 0, 65, 0, 0, 0] ⟨[], [], 0, 0⟩).2 = false ∧
    (LoadState [⟨PresetNameIndexMapTypeID, 0,
          [1, 0, 0, 0, 1, 0, 0, 0, 0, 0, 0, 0, 65, 0, 0, 0]⟩] []
        ⟨[], [], 0, 0⟩).1.presetContainer ≠ PresetContainer.mk [] [] 0 0 ∧
    (LoadState [⟨PresetNameIndexMapTypeID, 0,
          [1, 0, 0, 0, 1, 0, 0, 0, 0, 0, 0, 0, 65, 0, 0, 0]⟩] []
        ⟨[], [], 0, 0⟩).1.presetContainer.femalePresetIndexByName = [([65], 0)] := by
  decide
